import Mathlib

/-!
# libglabels: `FrameCd` and `Point`

A shallow embedding of `libglabels/FrameCd.cpp` and `libglabels/Point.cpp`.

* A C++ `double` is modelled as an element of a linearly ordered field `α`
  (exact arithmetic, no rounding, no NaN).  The definitions are generic in `α`
  so that they stay executable; the theorems are stated at `α = ℝ`, with
  `acos`, `asin`, `cos`, `sin` and `M_PI` read as the real functions and `π`.
* The toolkit path type `QPainterPath` is kept symbolic: a path is the list of
  its elements, each with the rectangle and angles it was created with, and
  `translate` moves the rectangles.  The points of a path are given by
  `PathElement.trace` and `Piece.Contains`.
-/

namespace libglabels

/-- The functions of `<cmath>` used by the frame code and by the path type,
together with the constant `M_PI`. -/
structure CMath (α : Type) where
  acos : α → α
  asin : α → α
  cos : α → α
  sin : α → α
  M_PI : α

/-! ## The path type -/

/-- Modelled from the spec: one element of the toolkit's 2D path type
(`QPainterPath`, which is not part of these sources).  The spec (§6) lists the
operations: arc-segment append (bounding box, start angle, sweep angle),
ellipse append, subpath closing and translation.  Angles are in degrees. -/
inductive PathElement (α : Type) where
  | arcMoveTo (x y w h angle : α)
  | arcTo (x y w h startAngle sweepLength : α)
  | closeSubpath
  | addEllipse (x y w h : α)
  deriving DecidableEq

/-- Modelled from the spec: the toolkit's 2D path type (`QPainterPath`), as the
sequence of its elements. -/
structure QPainterPath (α : Type) where
  elements : List (PathElement α)
  deriving DecidableEq

namespace PathElement

variable {α : Type} [LinearOrderedField α]

/-- Moves one element by `(dx, dy)`. -/
def translate (dx dy : α) : PathElement α → PathElement α
  | arcMoveTo x y w h angle => arcMoveTo (x + dx) (y + dy) w h angle
  | arcTo x y w h startAngle sweepLength => arcTo (x + dx) (y + dy) w h startAngle sweepLength
  | closeSubpath => closeSubpath
  | addEllipse x y w h => addEllipse (x + dx) (y + dy) w h

end PathElement

namespace QPainterPath

variable {α : Type} [LinearOrderedField α]

/-- A default-constructed path. -/
def empty : QPainterPath α := ⟨[]⟩

/-- `QPainterPath::arcMoveTo( x, y, w, h, angle )`. -/
def arcMoveTo (p : QPainterPath α) (x y w h angle : α) : QPainterPath α :=
  ⟨p.elements ++ [PathElement.arcMoveTo x y w h angle]⟩

/-- `QPainterPath::arcTo( x, y, w, h, startAngle, sweepLength )`. -/
def arcTo (p : QPainterPath α) (x y w h startAngle sweepLength : α) : QPainterPath α :=
  ⟨p.elements ++ [PathElement.arcTo x y w h startAngle sweepLength]⟩

/-- `QPainterPath::closeSubpath()`. -/
def closeSubpath (p : QPainterPath α) : QPainterPath α :=
  ⟨p.elements ++ [PathElement.closeSubpath]⟩

/-- `QPainterPath::addEllipse( x, y, w, h )`. -/
def addEllipse (p : QPainterPath α) (x y w h : α) : QPainterPath α :=
  ⟨p.elements ++ [PathElement.addEllipse x y w h]⟩

/-- `QPainterPath::translate( dx, dy )`: every element is moved. -/
def translate (p : QPainterPath α) (dx dy : α) : QPainterPath α :=
  ⟨p.elements.map (PathElement.translate dx dy)⟩

end QPainterPath

/-! ## The points of a path -/

section Geometry

variable {α : Type} [LinearOrderedField α]

/-- Modelled from the spec: the geometry of the toolkit's arcs, which is not part of
these sources. The point at `angle` degrees on the ellipse inscribed in the
rectangle `(x, y, w, h)`: angles run counter-clockwise and the y axis points
down, so in the rectangle `(0, 0, 2R, 2R)` this is `(R + R cos a, R - R sin a)`. -/
def arcPoint (m : CMath α) (x y w h angle : α) : α × α :=
  (x + w / 2 + w / 2 * m.cos (angle * m.M_PI / 180),
   y + h / 2 - h / 2 * m.sin (angle * m.M_PI / 180))

/-- A piece of a drawn path: a straight segment or an elliptic arc. -/
inductive Piece (α : Type) where
  | line (p q : α × α)
  | arc (x y w h startAngle sweepLength : α)
  deriving DecidableEq

/-- The pen of a path under construction: the current position and the start
of the current subpath. -/
structure PenState (α : Type) where
  cur : α × α
  start : α × α

/-- Modelled from the spec: what the toolkit draws for one element, and where it
leaves the pen (not part of these sources).  `arcMoveTo` starts a
subpath at the arc point; `arcTo` joins the current position to the start of
the arc by a straight segment and then draws the arc; `closeSubpath` draws a
segment back to the start of the subpath; `addEllipse` draws a full ellipse as
a closed subpath of its own. -/
def PathElement.trace (m : CMath α) (s : PenState α) :
    PathElement α → List (Piece α) × PenState α
  | .arcMoveTo x y w h angle =>
      ([], ⟨arcPoint m x y w h angle, arcPoint m x y w h angle⟩)
  | .arcTo x y w h startAngle sweepLength =>
      ([Piece.line s.cur (arcPoint m x y w h startAngle), Piece.arc x y w h startAngle sweepLength],
       ⟨arcPoint m x y w h (startAngle + sweepLength), s.start⟩)
  | .closeSubpath =>
      ([Piece.line s.cur s.start], ⟨s.start, s.start⟩)
  | .addEllipse x y w h =>
      ([Piece.arc x y w h 0 360], ⟨arcPoint m x y w h 0, arcPoint m x y w h 0⟩)

/-- The pieces drawn by a list of elements, starting from pen state `s`. -/
def tracePieces (m : CMath α) : PenState α → List (PathElement α) → List (Piece α)
  | _, [] => []
  | s, e :: rest => (e.trace m s).1 ++ tracePieces m (e.trace m s).2 rest

/-- The elements of the first subpath: everything up to and including the
first `closeSubpath`. -/
def firstSubpath : List (PathElement α) → List (PathElement α)
  | [] => []
  | .closeSubpath :: _ => [.closeSubpath]
  | e :: rest => e :: firstSubpath rest

/-- The pieces of the outer contour of a path: those of its first subpath. -/
def QPainterPath.outerContour (m : CMath α) (p : QPainterPath α) : List (Piece α) :=
  tracePieces m ⟨(0, 0), (0, 0)⟩ (firstSubpath p.elements)

/-- The point `pt` lies on the piece: on the segment from `p` to `q`, or on the
arc at an angle between `startAngle` and `startAngle + sweepLength`. -/
def Piece.Contains (m : CMath α) : Piece α → α × α → Prop
  | .line p q, pt =>
      ∃ t : α, 0 ≤ t ∧ t ≤ 1 ∧ pt = (p.1 + t * (q.1 - p.1), p.2 + t * (q.2 - p.2))
  | .arc x y w h startAngle sweepLength, pt =>
      ∃ t : α, 0 ≤ t ∧ t ≤ 1 ∧ pt = arcPoint m x y w h (startAngle + t * sweepLength)

/-- The point `pt` lies on the outer contour of the path. -/
def QPainterPath.OnOuterContour (m : CMath α) (p : QPainterPath α) (pt : α × α) : Prop :=
  ∃ piece ∈ p.outerContour m, piece.Contains m pt

end Geometry

/-! ## FrameCd -/

/-- Modelled from the spec: the measurement-unit abstraction (`Units`, which is not
part of these sources), providing `id()`, `name()` and `unitsPerPoint()` (§6). -/
structure Units (α : Type) where
  id : String
  name : String
  unitsPerPoint : α

/-- The string functions used by `sizeDescription` that are not part of these
sources: `StrUtil::formatFraction`, the `%.5g` conversion of `sprintf`, and the
translation function `tr`. -/
structure StrFormat (α : Type) where
  formatFraction : α → String
  sprintf_5g : α → String
  tr : String → String

/-- A `FrameCd` object: the identifier held by the base class `Frame`, the five
numeric members and the two precomputed paths. -/
structure FrameCd (α : Type) where
  mId : String
  mR1 : α
  mR2 : α
  mW : α
  mH : α
  mWaste : α
  mPath : QPainterPath α
  mRotatedPath : QPainterPath α
  deriving DecidableEq

/-- A frame seen through a `Frame*`: a `FrameCd`, or one of the other concrete
variants, which are not part of these sources and are kept abstract. -/
inductive Frame (α : Type) (Other : Type) where
  | cd (f : FrameCd α)
  | other (f : Other)

/-- The item returned by `createMarginGraphicsItem`: a path and its pen. -/
structure QGraphicsPathItem (α : Type) (QPen : Type) where
  path : QPainterPath α
  pen : QPen

namespace FrameCd

variable {α : Type} [LinearOrderedField α]

/-- `FrameCd::FrameCd( r1, r2, w, h, waste, id )`. -/
def new (m : CMath α) (r1 r2 w h waste : α) (id : String) : FrameCd α :=
  let mR1 := r1
  let mR2 := r2
  -- First, initialize the un-rotated path
  let mPath : QPainterPath α :=
    let theta1 := m.acos (w / (2 * mR1)) * 180 / m.M_PI
    let theta2 := m.asin (h / (2 * mR1)) * 180 / m.M_PI
    QPainterPath.empty
      |>.arcMoveTo 0 0 (2 * mR1) (2 * mR1) theta1
      |>.arcTo 0 0 (2 * mR1) (2 * mR1) theta1 (theta2 - theta1)
      |>.arcTo 0 0 (2 * mR1) (2 * mR1) (180 - theta2) (theta2 - theta1)
      |>.arcTo 0 0 (2 * mR1) (2 * mR1) (180 + theta1) (theta2 - theta1)
      |>.arcTo 0 0 (2 * mR1) (2 * mR1) (360 - theta2) (theta2 - theta1)
      |>.closeSubpath
      |>.addEllipse (mR1 - mR2) (mR1 - mR2) (2 * mR2) (2 * mR2)
      |>.translate (w / 2 - mR1) (h / 2 - mR1)
  -- Next, initialize the rotated path
  let mRotatedPath : QPainterPath α :=
    let theta1 := m.acos (h / (2 * mR1)) * 180 / m.M_PI
    let theta2 := m.asin (w / (2 * mR1)) * 180 / m.M_PI
    QPainterPath.empty
      |>.arcMoveTo 0 0 (2 * mR1) (2 * mR1) theta1
      |>.arcTo 0 0 (2 * mR1) (2 * mR1) theta1 (theta2 - theta1)
      |>.arcTo 0 0 (2 * mR1) (2 * mR1) (180 - theta2) (theta2 - theta1)
      |>.arcTo 0 0 (2 * mR1) (2 * mR1) (180 + theta1) (theta2 - theta1)
      |>.arcTo 0 0 (2 * mR1) (2 * mR1) (360 - theta2) (theta2 - theta1)
      |>.closeSubpath
      |>.addEllipse (mR1 - mR2) (mR1 - mR2) (2 * mR2) (2 * mR2)
      |>.translate (h / 2 - mR1) (w / 2 - mR1)
  { mId := id, mR1 := mR1, mR2 := mR2, mW := w, mH := h, mWaste := waste,
    mPath := mPath, mRotatedPath := mRotatedPath }

/-- `FrameCd::FrameCd( const FrameCd& other )`: the initializer list names
`mR1`, `mR2`, `mW`, `mH`, `mWaste`, `mPath` and the base class; `mRotatedPath`
is not named there and is default-constructed. -/
def copy (other : FrameCd α) : FrameCd α :=
  { mId := other.mId, mR1 := other.mR1, mR2 := other.mR2, mW := other.mW, mH := other.mH,
    mWaste := other.mWaste, mPath := other.mPath, mRotatedPath := QPainterPath.empty }

/-- `FrameCd::dup()`. -/
def dup (self : FrameCd α) : FrameCd α :=
  copy self

/-- `FrameCd::w()`. -/
def w (self : FrameCd α) : α :=
  if self.mW = 0 then 2 * self.mR1 else self.mW

/-- `FrameCd::h()`. -/
def h (self : FrameCd α) : α :=
  if self.mH = 0 then 2 * self.mR1 else self.mH

/-- `FrameCd::sizeDescription( units )`; the format `"%s %s %s"` joins its three
arguments with single spaces. -/
def sizeDescription (fmt : StrFormat α) (self : FrameCd α) (units : Units α) : String :=
  if units.id = "in" then
    let dStr := fmt.formatFraction (2 * self.mR1 * units.unitsPerPoint)
    dStr ++ " " ++ units.name ++ " " ++ fmt.tr "diameter"
  else
    fmt.sprintf_5g (2 * self.mR1 * units.unitsPerPoint) ++ " " ++ units.name ++ " " ++
      fmt.tr "diameter"

/-- `FrameCd::isSimilarTo( other )`; `EPSILON` is `Constants::EPSILON`, defined
in a header that is not part of these sources. -/
def isSimilarTo {Other : Type} (EPSILON : α) (self : FrameCd α) (other : Frame α Other) : Bool :=
  match other with
  | .cd otherCd =>
      if |self.mW - otherCd.mW| ≤ EPSILON ∧
         |self.mH - otherCd.mH| ≤ EPSILON ∧
         |self.mR1 - otherCd.mR1| ≤ EPSILON ∧
         |self.mR2 - otherCd.mR2| ≤ EPSILON then
        true
      else
        false
  | .other _ => false

/-- `FrameCd::path( isRotated )`. -/
def path (self : FrameCd α) (isRotated : Bool) : QPainterPath α :=
  if isRotated then self.mRotatedPath else self.mPath

/-- `FrameCd::createMarginGraphicsItem( size, pen )`. -/
def createMarginGraphicsItem {QPen : Type} (m : CMath α) (self : FrameCd α) (size : α)
    (pen : QPen) : QGraphicsPathItem α QPen :=
  let r1 := self.mR1 - size
  let r2 := self.mR2 + size
  let theta1 := m.acos ((self.mW - 2 * size) / (2 * r1)) * 180 / m.M_PI
  let theta2 := m.asin ((self.mH - 2 * size) / (2 * r1)) * 180 / m.M_PI
  let path : QPainterPath α :=
    QPainterPath.empty
      |>.arcMoveTo 0 0 (2 * r1) (2 * r1) theta1
      |>.arcTo 0 0 (2 * r1) (2 * r1) theta1 (theta2 - theta1)
      |>.arcTo 0 0 (2 * r1) (2 * r1) (180 - theta2) (theta2 - theta1)
      |>.arcTo 0 0 (2 * r1) (2 * r1) (180 + theta1) (theta2 - theta1)
      |>.arcTo 0 0 (2 * r1) (2 * r1) (360 - theta2) (theta2 - theta1)
      |>.closeSubpath
      |>.addEllipse (r1 - r2) (r1 - r2) (2 * r2) (2 * r2)
      |>.translate (self.mW / 2 - r1) (self.mH / 2 - r1)
  { path := path, pen := pen }

end FrameCd

/-! ## Point -/

/-- A `Point` object. -/
structure Point (α : Type) where
  mX : α
  mY : α
  deriving DecidableEq

namespace Point

variable {α : Type} [LinearOrderedField α]

/-- `Point::Point()`. -/
def default : Point α := ⟨0, 0⟩

/-- `Point::Point( x, y )`. -/
def new (x y : α) : Point α := ⟨x, y⟩

/-- `Point::operator<( other )`. -/
def lt (self other : Point α) : Bool :=
  if self.mY < other.mY then
    true
  else if self.mY = other.mY then
    decide (self.mX < other.mX)
  else
    false

end Point

/-! ## Copying, size accessors and similarity -/

/-- Claim C3. What the copy constructor and `dup()` do on a constructed frame `f`: the
copy has the same `r1`, `r2`, `w`, `h`, `waste` and `id` and the same
un-rotated outline, `dup(f).path(false) = f.path(false)`; but its rotated
outline is the empty path, while `f.path(true)` has seven elements. So
`dup(f).path(true) = f.path(true)` fails for every constructed frame. -/
theorem dup_keeps_fields_drops_rotated_path (m : CMath ℝ) (r1 r2 w h waste : ℝ) (id : String) :
    (FrameCd.new m r1 r2 w h waste id).dup.mR1 = r1 ∧
    (FrameCd.new m r1 r2 w h waste id).dup.mR2 = r2 ∧
    (FrameCd.new m r1 r2 w h waste id).dup.mW = w ∧
    (FrameCd.new m r1 r2 w h waste id).dup.mH = h ∧
    (FrameCd.new m r1 r2 w h waste id).dup.mWaste = waste ∧
    (FrameCd.new m r1 r2 w h waste id).dup.mId = id ∧
    (FrameCd.new m r1 r2 w h waste id).dup.path false =
      (FrameCd.new m r1 r2 w h waste id).path false ∧
    ((FrameCd.new m r1 r2 w h waste id).dup.path true).elements = [] ∧
    ((FrameCd.new m r1 r2 w h waste id).path true).elements.length = 7 ∧
    (FrameCd.new m r1 r2 w h waste id).dup.path true ≠
      (FrameCd.new m r1 r2 w h waste id).path true := by
  refine ⟨rfl, rfl, rfl, rfl, rfl, rfl, rfl, rfl, rfl, fun hEq => ?_⟩
  have hlen : (0 : ℕ) = 7 := congrArg (fun p : QPainterPath ℝ => p.elements.length) hEq
  exact absurd hlen (by decide)

/-- Claim C5. For all `r1`, `r2`, `w`, `h`, `waste`, the rotated outline
`path(true)` of `FrameCd(r1, r2, w, h)` is equal, element by element (arc
rectangles, start angles, sweeps, hole ellipse, translation), to the
un-rotated outline `path(false)` of `FrameCd(r1, r2, h, w)`. -/
theorem path_rotated_eq_path_of_swapped (m : CMath ℝ) (r1 r2 w h waste : ℝ) (id : String) :
    (FrameCd.new m r1 r2 w h waste id).path true =
      (FrameCd.new m r1 r2 h w waste id).path false :=
  rfl

/-- Claim C6. For every `FrameCd`, `w()` is `2*r1` when the stored width is 0 and the
stored width otherwise, and `h()` likewise for the stored height; so when
`r1 > 0` neither `w()` nor `h()` is 0, whatever `w` and `h` were supplied. -/
theorem w_h_effective_size (f : FrameCd ℝ) :
    f.w = (if f.mW = 0 then 2 * f.mR1 else f.mW) ∧
    f.h = (if f.mH = 0 then 2 * f.mR1 else f.mH) ∧
    (0 < f.mR1 → f.w ≠ 0 ∧ f.h ≠ 0) := by
  refine ⟨rfl, rfl, fun hr => ⟨?_, ?_⟩⟩
  · unfold FrameCd.w
    split_ifs with h0
    · positivity
    · exact h0
  · unfold FrameCd.h
    split_ifs with h0
    · positivity
    · exact h0

/-- Instance of C6 at `FrameCd(60, 7.5, 0, 0)`: both sizes are the diameter 120. -/
theorem w_h_effective_size_witness :
    (FrameCd.new ⟨Real.arccos, Real.arcsin, Real.cos, Real.sin, Real.pi⟩ 60 7.5 0 0 0 "CD").w = 120 ∧
    (FrameCd.new ⟨Real.arccos, Real.arcsin, Real.cos, Real.sin, Real.pi⟩ 60 7.5 0 0 0 "CD").h = 120 ∧
    (FrameCd.new ⟨Real.arccos, Real.arcsin, Real.cos, Real.sin, Real.pi⟩ 60 7.5 0 0 0 "CD").w ≠ 0 ∧
    (FrameCd.new ⟨Real.arccos, Real.arcsin, Real.cos, Real.sin, Real.pi⟩ 60 7.5 0 0 0 "CD").h ≠ 0 := by
  have key := w_h_effective_size
    (FrameCd.new ⟨Real.arccos, Real.arcsin, Real.cos, Real.sin, Real.pi⟩ 60 7.5 0 0 0 "CD")
  have hr : (0 : ℝ) < (FrameCd.new ⟨Real.arccos, Real.arcsin, Real.cos, Real.sin, Real.pi⟩
      60 7.5 0 0 0 "CD").mR1 := by
    show (0 : ℝ) < 60
    norm_num
  refine ⟨?_, ?_, (key.2.2 hr).1, (key.2.2 hr).2⟩
  · rw [key.1]
    show (if (0 : ℝ) = 0 then 2 * (60 : ℝ) else 0) = 120
    norm_num
  · rw [key.2.1]
    show (if (0 : ℝ) = 0 then 2 * (60 : ℝ) else 0) = 120
    norm_num

/-- The result of `isSimilarTo` on another `FrameCd`. -/
theorem isSimilarTo_cd_iff {Other : Type} (EPSILON : ℝ) (f g : FrameCd ℝ) :
    f.isSimilarTo EPSILON (Frame.cd g : Frame ℝ Other) = true ↔
      |f.mW - g.mW| ≤ EPSILON ∧ |f.mH - g.mH| ≤ EPSILON ∧
      |f.mR1 - g.mR1| ≤ EPSILON ∧ |f.mR2 - g.mR2| ≤ EPSILON := by
  simp only [FrameCd.isSimilarTo]
  split_ifs with hc <;> simp [hc]

/-- When `isSimilarTo` is false on another `FrameCd`. -/
theorem isSimilarTo_cd_eq_false_iff {Other : Type} (EPSILON : ℝ) (f g : FrameCd ℝ) :
    f.isSimilarTo EPSILON (Frame.cd g : Frame ℝ Other) = false ↔
      ¬ (|f.mW - g.mW| ≤ EPSILON ∧ |f.mH - g.mH| ≤ EPSILON ∧
      |f.mR1 - g.mR1| ≤ EPSILON ∧ |f.mR2 - g.mR2| ≤ EPSILON) := by
  rw [← @isSimilarTo_cd_iff Other, Bool.not_eq_true]

/-- Claim C7. For every `FrameCd` `f` and every frame `g`, `f.isSimilarTo(g)` is true
if and only if `g` is also a `FrameCd` and each of its stored `w`, stored `h`,
`r1`, `r2` differs from that of `f` by at most `EPSILON` in absolute value;
when `g` is another concrete variant the result is `false` (a value, not an
error). -/
theorem isSimilarTo_iff_cd_within_epsilon {Other : Type} (EPSILON : ℝ) (f : FrameCd ℝ)
    (g : Frame ℝ Other) :
    (f.isSimilarTo EPSILON g = true ↔
      ∃ gCd : FrameCd ℝ, g = Frame.cd gCd ∧
        |gCd.mW - f.mW| ≤ EPSILON ∧ |gCd.mH - f.mH| ≤ EPSILON ∧
        |gCd.mR1 - f.mR1| ≤ EPSILON ∧ |gCd.mR2 - f.mR2| ≤ EPSILON) ∧
    ∀ o : Other, f.isSimilarTo EPSILON (Frame.other o : Frame ℝ Other) = false := by
  refine ⟨?_, fun o => rfl⟩
  cases g with
  | cd gCd =>
    rw [isSimilarTo_cd_iff]
    simp only [Frame.cd.injEq, exists_eq_left', abs_sub_comm gCd.mW,
      abs_sub_comm gCd.mH, abs_sub_comm gCd.mR1, abs_sub_comm gCd.mR2]
  | other o =>
    simp [FrameCd.isSimilarTo]

/-- Claim C8, as amended. With `0 ≤ EPSILON`: for every `FrameCd` `f`,
`f.isSimilarTo(f)` is true; and for `g` obtained from `f` by adding `d` to one
of the four compared parameters `r1`, `r2`, stored `w`, stored `h`,
`f.isSimilarTo(g)` is false when `|d| > EPSILON` and true when
`|d| < EPSILON`. -/
theorem isSimilarTo_refl_and_tolerant {Other : Type} (EPSILON : ℝ) (hE : 0 ≤ EPSILON)
    (f : FrameCd ℝ) (d : ℝ) :
    f.isSimilarTo EPSILON (Frame.cd f : Frame ℝ Other) = true ∧
    (EPSILON < |d| →
      f.isSimilarTo EPSILON (Frame.cd { f with mR1 := f.mR1 + d } : Frame ℝ Other) = false ∧
      f.isSimilarTo EPSILON (Frame.cd { f with mR2 := f.mR2 + d } : Frame ℝ Other) = false ∧
      f.isSimilarTo EPSILON (Frame.cd { f with mW := f.mW + d } : Frame ℝ Other) = false ∧
      f.isSimilarTo EPSILON (Frame.cd { f with mH := f.mH + d } : Frame ℝ Other) = false) ∧
    (|d| < EPSILON →
      f.isSimilarTo EPSILON (Frame.cd { f with mR1 := f.mR1 + d } : Frame ℝ Other) = true ∧
      f.isSimilarTo EPSILON (Frame.cd { f with mR2 := f.mR2 + d } : Frame ℝ Other) = true ∧
      f.isSimilarTo EPSILON (Frame.cd { f with mW := f.mW + d } : Frame ℝ Other) = true ∧
      f.isSimilarTo EPSILON (Frame.cd { f with mH := f.mH + d } : Frame ℝ Other) = true) := by
  have hd : ∀ x : ℝ, |x - (x + d)| = |d| := fun x => by
    rw [sub_add_cancel_left, abs_neg]
  refine ⟨?_, fun hgt => ?_, fun hlt => ?_⟩
  · rw [isSimilarTo_cd_iff]; simp [hE]
  · simp only [isSimilarTo_cd_eq_false_iff, hd, sub_self, abs_zero, hE, true_and, and_true,
      not_le]
    exact ⟨hgt, hgt, hgt, hgt⟩
  · simp only [isSimilarTo_cd_iff, hd, sub_self, abs_zero, hE, true_and, and_true]
    exact ⟨hlt.le, hlt.le, hlt.le, hlt.le⟩

/-- Instance of C8 at `EPSILON = 1/2` and `FrameCd(60, 7.5, 120, 120, 0)`: the frame is
similar to itself, not similar to the frame with `r1` moved by 1, and similar
to the frame with `w` moved by 1/4. -/
theorem isSimilarTo_refl_and_tolerant_witness :
    (0 : ℝ) ≤ 1 / 2 ∧
    (FrameCd.new ⟨Real.arccos, Real.arcsin, Real.cos, Real.sin, Real.pi⟩ 60 7.5 120 120 0
        "CD").isSimilarTo (1 / 2)
      (Frame.cd (FrameCd.new ⟨Real.arccos, Real.arcsin, Real.cos, Real.sin, Real.pi⟩ 60 7.5 120
        120 0 "CD") : Frame ℝ Unit) = true ∧
    (FrameCd.new ⟨Real.arccos, Real.arcsin, Real.cos, Real.sin, Real.pi⟩ 60 7.5 120 120 0
        "CD").isSimilarTo (1 / 2)
      (Frame.cd { FrameCd.new ⟨Real.arccos, Real.arcsin, Real.cos, Real.sin, Real.pi⟩ 60 7.5 120
        120 0 "CD" with mR1 := 60 + 1 } : Frame ℝ Unit) = false ∧
    (FrameCd.new ⟨Real.arccos, Real.arcsin, Real.cos, Real.sin, Real.pi⟩ 60 7.5 120 120 0
        "CD").isSimilarTo (1 / 2)
      (Frame.cd { FrameCd.new ⟨Real.arccos, Real.arcsin, Real.cos, Real.sin, Real.pi⟩ 60 7.5 120
        120 0 "CD" with mW := 120 + 1 / 4 } : Frame ℝ Unit) = true :=
  ⟨by norm_num,
   (isSimilarTo_refl_and_tolerant (1 / 2) (by norm_num) _ 1).1,
   ((isSimilarTo_refl_and_tolerant (1 / 2) (by norm_num) _ 1).2.1
      (by rw [abs_one]; norm_num)).1,
   ((isSimilarTo_refl_and_tolerant (1 / 2) (by norm_num) _ (1 / 4)).2.2
      (by rw [abs_of_pos (by norm_num : (0 : ℝ) < 1 / 4)]; norm_num)).2.2.1⟩

/-- Claim C8, against the claim as stated. Whatever non-negative value `EPSILON` has,
it is not true that perturbing any one parameter by more than `EPSILON` makes
`isSimilarTo` false: adding `d = EPSILON + 1` to the `waste` of
`FrameCd(60, 7.5, 120, 120, 0)` leaves `isSimilarTo` true. -/
theorem isSimilarTo_true_when_waste_perturbed :
    ¬ ∃ EPSILON : ℝ, 0 ≤ EPSILON ∧ ∀ (f : FrameCd ℝ) (d : ℝ), EPSILON < |d| →
      f.isSimilarTo EPSILON (Frame.cd { f with mWaste := f.mWaste + d } : Frame ℝ Unit) =
        false := by
  rintro ⟨E, hE, hall⟩
  have h1 := hall
    (FrameCd.new ⟨Real.arccos, Real.arcsin, Real.cos, Real.sin, Real.pi⟩ 60 7.5 120 120 0 "CD")
    (E + 1) (by rw [abs_of_pos (by linarith)]; linarith)
  rw [isSimilarTo_cd_eq_false_iff] at h1
  apply h1
  simp [hE]

/-! ## The margin guide -/

/-- Claim C9. For every constructed `FrameCd` `f` (and for its copy), the path of
the item built by `createMarginGraphicsItem` with `size = 0` is equal to
`f.path(false)`: same outer radius, hole radius, footprint, clip angles and
translation. -/
theorem createMarginGraphicsItem_zero_path {QPen : Type} (m : CMath ℝ) (r1 r2 w h waste : ℝ)
    (id : String) (pen : QPen) :
    ((FrameCd.new m r1 r2 w h waste id).createMarginGraphicsItem m 0 pen).path =
      (FrameCd.new m r1 r2 w h waste id).path false ∧
    ((FrameCd.new m r1 r2 w h waste id).dup.createMarginGraphicsItem m 0 pen).path =
      (FrameCd.new m r1 r2 w h waste id).dup.path false := by
  constructor <;>
    simp [FrameCd.createMarginGraphicsItem, FrameCd.new, FrameCd.path, FrameCd.dup, FrameCd.copy]

/-! ## Point ordering -/

/-- The comparison of `Point::operator<`, as a proposition. -/
theorem Point.lt_eq_true_iff (a b : Point ℝ) :
    a.lt b = true ↔ a.mY < b.mY ∨ (a.mY = b.mY ∧ a.mX < b.mX) := by
  unfold Point.lt
  split_ifs with h1 h2
  · simp [h1]
  · simp [h2]
  · simp [h1, h2]

/-- The operator `<` never holds in both directions. -/
theorem Point.lt_asymm (a b : Point ℝ) (hab : a.lt b = true) (hba : b.lt a = true) : False := by
  rw [Point.lt_eq_true_iff] at hab hba
  rcases hab with h | ⟨h, h'⟩ <;> rcases hba with k | ⟨k, k'⟩ <;> linarith

/-- Claim C10. For all points `a` and `b`, `a < b` is true if and only if
`a.y < b.y`, or `a.y = b.y` and `a.x < b.x` (the operator is a function of the
two points and returns only the boolean). In particular
`(0,1) < (1,1) < (0,2)`, and sorting `[(0,2),(1,1),(0,1)]` with this comparator
yields `[(0,1),(1,1),(0,2)]`: insertion sort returns it, and it is the only
arrangement of the three points that is sorted for the comparator. -/
theorem Point.lt_iff_and_sort_example (a b : Point ℝ) :
    (a.lt b = true ↔ a.mY < b.mY ∨ (a.mY = b.mY ∧ a.mX < b.mX)) ∧
    (Point.new (0 : ℝ) 1).lt (Point.new 1 1) = true ∧
    (Point.new (1 : ℝ) 1).lt (Point.new 0 2) = true ∧
    List.insertionSort (fun p q : Point ℝ => p.lt q = true)
        [Point.new 0 2, Point.new 1 1, Point.new 0 1] =
      [Point.new 0 1, Point.new 1 1, Point.new 0 2] ∧
    ∀ l : List (Point ℝ), l.Perm [Point.new 0 2, Point.new 1 1, Point.new 0 1] →
      l.Sorted (fun p q => p.lt q = true) →
      l = [Point.new 0 1, Point.new 1 1, Point.new 0 2] := by
  have h1 : (Point.new (0 : ℝ) 1).lt (Point.new 1 1) = true := by
    rw [Point.lt_eq_true_iff]; simp [Point.new]
  have h2 : (Point.new (1 : ℝ) 1).lt (Point.new 0 2) = true := by
    rw [Point.lt_eq_true_iff]; simp [Point.new]
  have h3 : (Point.new (0 : ℝ) 1).lt (Point.new 0 2) = true := by
    rw [Point.lt_eq_true_iff]; simp [Point.new]
  have n1 : ¬ (Point.new (0 : ℝ) 2).lt (Point.new 1 1) = true := fun hx =>
    Point.lt_asymm _ _ h2 hx
  have n2 : ¬ (Point.new (1 : ℝ) 1).lt (Point.new 0 1) = true := fun hx =>
    Point.lt_asymm _ _ h1 hx
  have n3 : ¬ (Point.new (0 : ℝ) 2).lt (Point.new 0 1) = true := fun hx =>
    Point.lt_asymm _ _ h3 hx
  have hs : List.Sorted (fun p q : Point ℝ => p.lt q = true)
      [Point.new 0 1, Point.new 1 1, Point.new 0 2] := by
    simp [List.Sorted, h1, h2, h3]
  refine ⟨Point.lt_eq_true_iff a b, h1, h2, ?_, fun l hp hl => ?_⟩
  · simp [List.insertionSort, List.orderedInsert, n1, n2, n3, h2]
  · haveI : IsAntisymm (Point ℝ) (fun p q => p.lt q = true) :=
      ⟨fun p q hpq hqp => (Point.lt_asymm p q hpq hqp).elim⟩
    refine List.eq_of_perm_of_sorted (hp.trans ?_) hl hs
    exact List.reverse_perm [Point.new 0 1, Point.new 1 1, Point.new 0 2]

/-! ## The outer contour of the un-rotated outline -/

/-- An arc point, with the real cosine and sine. -/
theorem arcPoint_real (x y w h a : ℝ) :
    arcPoint ⟨Real.arccos, Real.arcsin, Real.cos, Real.sin, Real.pi⟩ x y w h a =
      (x + w / 2 + w / 2 * Real.cos (a * Real.pi / 180),
       y + h / 2 - h / 2 * Real.sin (a * Real.pi / 180)) :=
  rfl

/-- The ratio passed to `acos` and `asin` lies in `(0, 1]` for a valid clipped footprint. -/
theorem clip_ratio_mem (r1 w : ℝ) (hr : 0 < r1) (hw : 0 < w) (hw2 : w ≤ 2 * r1) :
    0 < w / (2 * r1) ∧ w / (2 * r1) ≤ 1 := by
  have h2 : 0 < 2 * r1 := by linarith
  exact ⟨div_pos hw h2, (div_le_one h2).mpr hw2⟩

/-- The clip angle taken from the width is at most the one taken from the
height exactly when the corners of the footprint are not inside the disc. -/
theorem clip_angles_le_iff (r1 w h : ℝ) (hr : 0 < r1) (hw : 0 < w) (hw2 : w ≤ 2 * r1)
    (hh : 0 < h) (hh2 : h ≤ 2 * r1) :
    Real.arccos (w / (2 * r1)) ≤ Real.arcsin (h / (2 * r1)) ↔ 4 * r1 ^ 2 ≤ w ^ 2 + h ^ 2 := by
  obtain ⟨hu0, hu1⟩ := clip_ratio_mem r1 w hr hw hw2
  obtain ⟨hv0, hv1⟩ := clip_ratio_mem r1 h hr hh hh2
  have h2 : 0 < 2 * r1 := by linarith
  have key : (4 * r1 ^ 2 ≤ w ^ 2 + h ^ 2) ↔ 1 - (w / (2 * r1)) ^ 2 ≤ (h / (2 * r1)) ^ 2 := by
    rw [div_pow, div_pow, sub_le_iff_le_add, ← add_div, le_div_iff₀ (by positivity)]
    constructor <;> intro hx <;> nlinarith
  have hx : Real.arccos (w / (2 * r1)) ∈ Set.Icc (-(Real.pi / 2)) (Real.pi / 2) :=
    ⟨by have := Real.arccos_nonneg (w / (2 * r1)); have := Real.pi_pos; linarith,
     Real.arccos_le_pi_div_two.mpr hu0.le⟩
  rw [key, Real.le_arcsin_iff_sin_le hx ⟨by linarith, hv1⟩, Real.sin_arccos,
    Real.sqrt_le_left hv0.le]

/-- Between the two clip angles (in radians) the circle point stays inside the
half-width and the half-height of the footprint. -/
theorem clip_bounds (r1 w h : ℝ) (hr : 0 < r1) (hw : 0 < w) (hw2 : w ≤ 2 * r1)
    (hh : 0 < h) (hh2 : h ≤ 2 * r1) (b : ℝ)
    (hb1 : Real.arccos (w / (2 * r1)) ≤ b) (hb2 : b ≤ Real.arcsin (h / (2 * r1))) :
    (0 ≤ r1 * Real.cos b ∧ r1 * Real.cos b ≤ w / 2) ∧
    (0 ≤ r1 * Real.sin b ∧ r1 * Real.sin b ≤ h / 2) := by
  obtain ⟨hu0, hu1⟩ := clip_ratio_mem r1 w hr hw hw2
  obtain ⟨hv0, hv1⟩ := clip_ratio_mem r1 h hr hh hh2
  have hpi := Real.pi_pos
  have hb0 : 0 ≤ b := le_trans (Real.arccos_nonneg _) hb1
  have hb3 : b ≤ Real.pi / 2 := le_trans hb2 (Real.arcsin_le_pi_div_two _)
  have hc0 : 0 ≤ Real.cos b := Real.cos_nonneg_of_mem_Icc ⟨by linarith, hb3⟩
  have hs0 : 0 ≤ Real.sin b := Real.sin_nonneg_of_nonneg_of_le_pi hb0 (by linarith)
  have hc1 : Real.cos b ≤ w / (2 * r1) := by
    have := Real.cos_le_cos_of_nonneg_of_le_pi (Real.arccos_nonneg _) (by linarith) hb1
    rwa [Real.cos_arccos (by linarith) hu1] at this
  have hs1 : Real.sin b ≤ h / (2 * r1) := by
    have := Real.sin_le_sin_of_le_of_le_pi_div_two (by linarith) (Real.arcsin_le_pi_div_two _) hb2
    rwa [Real.sin_arcsin (by linarith) hv1] at this
  have ew : r1 * (w / (2 * r1)) = w / 2 := by field_simp; ring
  have eh : r1 * (h / (2 * r1)) = h / 2 := by field_simp; ring
  refine ⟨⟨mul_nonneg hr.le hc0, ?_⟩, ⟨mul_nonneg hr.le hs0, ?_⟩⟩
  · rw [← ew]; exact mul_le_mul_of_nonneg_left hc1 hr.le
  · rw [← eh]; exact mul_le_mul_of_nonneg_left hs1 hr.le

/-- An arc point of the constructed outline, after the translation. -/
theorem frame_arcPoint (r1 w h a : ℝ) :
    arcPoint ⟨Real.arccos, Real.arcsin, Real.cos, Real.sin, Real.pi⟩
        (0 + (w / 2 - r1)) (0 + (h / 2 - r1)) (2 * r1) (2 * r1) a =
      (w / 2 + r1 * Real.cos (a * Real.pi / 180), h / 2 - r1 * Real.sin (a * Real.pi / 180)) := by
  rw [arcPoint_real]
  refine Prod.ext ?_ ?_ <;> simp only <;> ring

/-- The four arcs of the un-rotated outline stay inside the footprint when the
width angle is at most the height angle. -/
theorem arcs_in_footprint (r1 w h : ℝ) (hr : 0 < r1) (hw : 0 < w) (hw2 : w ≤ 2 * r1)
    (hh : 0 < h) (hh2 : h ≤ 2 * r1)
    (hle : Real.arccos (w / (2 * r1)) ≤ Real.arcsin (h / (2 * r1)))
    (t : ℝ) (ht0 : 0 ≤ t) (ht1 : t ≤ 1) (start : ℝ)
    (hstart : start = Real.arccos (w / (2 * r1)) * 180 / Real.pi ∨
      start = 180 - Real.arcsin (h / (2 * r1)) * 180 / Real.pi ∨
      start = 180 + Real.arccos (w / (2 * r1)) * 180 / Real.pi ∨
      start = 360 - Real.arcsin (h / (2 * r1)) * 180 / Real.pi)
    (pt : ℝ × ℝ)
    (hpt : pt = arcPoint ⟨Real.arccos, Real.arcsin, Real.cos, Real.sin, Real.pi⟩
        (0 + (w / 2 - r1)) (0 + (h / 2 - r1)) (2 * r1) (2 * r1)
        (start + t * (Real.arcsin (h / (2 * r1)) * 180 / Real.pi -
          Real.arccos (w / (2 * r1)) * 180 / Real.pi))) :
    0 ≤ pt.1 ∧ pt.1 ≤ w ∧ 0 ≤ pt.2 ∧ pt.2 ≤ h := by
  have hpi := Real.pi_ne_zero
  set A1 := Real.arccos (w / (2 * r1)) with hA1
  set A2 := Real.arcsin (h / (2 * r1)) with hA2
  have hsw : 0 ≤ t * (A2 - A1) := mul_nonneg ht0 (by linarith)
  have hsw1 : t * (A2 - A1) ≤ A2 - A1 := by
    have := mul_le_mul_of_nonneg_right ht1 (by linarith : 0 ≤ A2 - A1)
    linarith
  -- the angle that goes up from A1, and the one that goes down from A2
  obtain ⟨⟨cu0, cu1⟩, su0, su1⟩ := clip_bounds r1 w h hr hw hw2 hh hh2 (A1 + t * (A2 - A1))
    (by linarith) (by linarith)
  obtain ⟨⟨cd0, cd1⟩, sd0, sd1⟩ := clip_bounds r1 w h hr hw hw2 hh hh2 (A2 - t * (A2 - A1))
    (by linarith) (by linarith)
  rw [frame_arcPoint] at hpt
  rcases hstart with hs | hs | hs | hs
  · have e : (start + t * (A2 * 180 / Real.pi - A1 * 180 / Real.pi)) * Real.pi / 180 =
        A1 + t * (A2 - A1) := by
      rw [hs]; field_simp; ring
    rw [e] at hpt
    subst hpt
    simp only
    refine ⟨?_, ?_, ?_, ?_⟩ <;> linarith
  · have e : (start + t * (A2 * 180 / Real.pi - A1 * 180 / Real.pi)) * Real.pi / 180 =
        Real.pi - (A2 - t * (A2 - A1)) := by
      rw [hs]; field_simp; ring
    rw [e, Real.cos_pi_sub, Real.sin_pi_sub] at hpt
    subst hpt
    simp only
    refine ⟨?_, ?_, ?_, ?_⟩ <;> linarith
  · have e : (start + t * (A2 * 180 / Real.pi - A1 * 180 / Real.pi)) * Real.pi / 180 =
        (A1 + t * (A2 - A1)) + Real.pi := by
      rw [hs]; field_simp; ring
    rw [e, Real.cos_add_pi, Real.sin_add_pi] at hpt
    subst hpt
    simp only
    refine ⟨?_, ?_, ?_, ?_⟩ <;> linarith
  · have e : (start + t * (A2 * 180 / Real.pi - A1 * 180 / Real.pi)) * Real.pi / 180 =
        2 * Real.pi - (A2 - t * (A2 - A1)) := by
      rw [hs]; field_simp; ring
    rw [e, Real.cos_two_pi_sub, Real.sin_two_pi_sub] at hpt
    subst hpt
    simp only
    refine ⟨?_, ?_, ?_, ?_⟩ <;> linarith

/-- A point of a segment whose two ends are in the rectangle is in the
rectangle. -/
theorem segment_in_footprint (w h : ℝ) (p q pt : ℝ × ℝ)
    (hp : 0 ≤ p.1 ∧ p.1 ≤ w ∧ 0 ≤ p.2 ∧ p.2 ≤ h)
    (hq : 0 ≤ q.1 ∧ q.1 ≤ w ∧ 0 ≤ q.2 ∧ q.2 ≤ h)
    (hpt : Piece.Contains ⟨Real.arccos, Real.arcsin, Real.cos, Real.sin, Real.pi⟩
      (Piece.line p q) pt) :
    0 ≤ pt.1 ∧ pt.1 ≤ w ∧ 0 ≤ pt.2 ∧ pt.2 ≤ h := by
  obtain ⟨t, ht0, ht1, rfl⟩ := hpt
  obtain ⟨p1, p2, p3, p4⟩ := hp
  obtain ⟨q1, q2, q3, q4⟩ := hq
  simp only
  refine ⟨?_, ?_, ?_, ?_⟩ <;> nlinarith



/-- The pieces of the outer contour of a path that starts with the four arcs
of the frame code: each is one of the four arcs, or a segment between two arc
ends. -/
theorem fourArcs_piece_cases (m : CMath ℝ) (x y d theta1 theta2 : ℝ)
    (rest : List (PathElement ℝ)) (piece : Piece ℝ)
    (hmem : piece ∈ QPainterPath.outerContour m
      ⟨[PathElement.arcMoveTo x y d d theta1,
        PathElement.arcTo x y d d theta1 (theta2 - theta1),
        PathElement.arcTo x y d d (180 - theta2) (theta2 - theta1),
        PathElement.arcTo x y d d (180 + theta1) (theta2 - theta1),
        PathElement.arcTo x y d d (360 - theta2) (theta2 - theta1),
        PathElement.closeSubpath] ++ rest⟩) :
    (∃ start : ℝ,
      (start = theta1 ∨ start = 180 - theta2 ∨ start = 180 + theta1 ∨ start = 360 - theta2) ∧
      piece = Piece.arc x y d d start (theta2 - theta1)) ∨
    (∃ s1 t1 s2 t2 : ℝ,
      (s1 = theta1 ∨ s1 = 180 - theta2 ∨ s1 = 180 + theta1 ∨ s1 = 360 - theta2) ∧
      (t1 = 0 ∨ t1 = 1) ∧
      (s2 = theta1 ∨ s2 = 180 - theta2 ∨ s2 = 180 + theta1 ∨ s2 = 360 - theta2) ∧
      (t2 = 0 ∨ t2 = 1) ∧
      piece = Piece.line (arcPoint m x y d d (s1 + t1 * (theta2 - theta1)))
        (arcPoint m x y d d (s2 + t2 * (theta2 - theta1)))) := by
  have hlist : QPainterPath.outerContour m
      ⟨[PathElement.arcMoveTo x y d d theta1,
        PathElement.arcTo x y d d theta1 (theta2 - theta1),
        PathElement.arcTo x y d d (180 - theta2) (theta2 - theta1),
        PathElement.arcTo x y d d (180 + theta1) (theta2 - theta1),
        PathElement.arcTo x y d d (360 - theta2) (theta2 - theta1),
        PathElement.closeSubpath] ++ rest⟩ =
      [Piece.line (arcPoint m x y d d theta1) (arcPoint m x y d d theta1),
       Piece.arc x y d d theta1 (theta2 - theta1),
       Piece.line (arcPoint m x y d d (theta1 + (theta2 - theta1)))
         (arcPoint m x y d d (180 - theta2)),
       Piece.arc x y d d (180 - theta2) (theta2 - theta1),
       Piece.line (arcPoint m x y d d (180 - theta2 + (theta2 - theta1)))
         (arcPoint m x y d d (180 + theta1)),
       Piece.arc x y d d (180 + theta1) (theta2 - theta1),
       Piece.line (arcPoint m x y d d (180 + theta1 + (theta2 - theta1)))
         (arcPoint m x y d d (360 - theta2)),
       Piece.arc x y d d (360 - theta2) (theta2 - theta1),
       Piece.line (arcPoint m x y d d (360 - theta2 + (theta2 - theta1)))
         (arcPoint m x y d d theta1)] := rfl
  rw [hlist] at hmem
  simp only [List.mem_cons, List.mem_singleton, List.not_mem_nil, or_false] at hmem
  rcases hmem with rfl | rfl | rfl | rfl | rfl | rfl | rfl | rfl | rfl
  · exact Or.inr ⟨theta1, 0, theta1, 0, Or.inl rfl, Or.inl rfl, Or.inl rfl, Or.inl rfl,
      by simp⟩
  · exact Or.inl ⟨theta1, Or.inl rfl, rfl⟩
  · exact Or.inr ⟨theta1, 1, 180 - theta2, 0, Or.inl rfl, Or.inr rfl, Or.inr (Or.inl rfl),
      Or.inl rfl, by simp⟩
  · exact Or.inl ⟨180 - theta2, Or.inr (Or.inl rfl), rfl⟩
  · exact Or.inr ⟨180 - theta2, 1, 180 + theta1, 0, Or.inr (Or.inl rfl), Or.inr rfl,
      Or.inr (Or.inr (Or.inl rfl)), Or.inl rfl, by simp⟩
  · exact Or.inl ⟨180 + theta1, Or.inr (Or.inr (Or.inl rfl)), rfl⟩
  · exact Or.inr ⟨180 + theta1, 1, 360 - theta2, 0, Or.inr (Or.inr (Or.inl rfl)), Or.inr rfl,
      Or.inr (Or.inr (Or.inr rfl)), Or.inl rfl, by simp⟩
  · exact Or.inl ⟨360 - theta2, Or.inr (Or.inr (Or.inr rfl)), rfl⟩
  · exact Or.inr ⟨360 - theta2, 1, theta1, 0, Or.inr (Or.inr (Or.inr rfl)), Or.inr rfl,
      Or.inl rfl, Or.inl rfl, by simp⟩

/-- Claim C1, as amended. For every `FrameCd` constructed with `r1 > 0`,
`0 < w <= 2*r1`, `0 < h <= 2*r1` and `w^2 + h^2 >= 4*r1^2` (the corners of the
footprint are not inside the disc), every point on the outer contour of
`path(false)` (the four arcs and the straight segments joining them, after the
translation) lies within the rectangle `[0,w] x [0,h]`. -/
theorem outer_contour_within_footprint (r1 r2 w h waste : ℝ) (id : String)
    (hr : 0 < r1) (hw : 0 < w) (hw2 : w ≤ 2 * r1) (hh : 0 < h) (hh2 : h ≤ 2 * r1)
    (hcorner : 4 * r1 ^ 2 ≤ w ^ 2 + h ^ 2) :
    ∀ pt : ℝ × ℝ,
      ((FrameCd.new ⟨Real.arccos, Real.arcsin, Real.cos, Real.sin, Real.pi⟩
        r1 r2 w h waste id).path false).OnOuterContour
          ⟨Real.arccos, Real.arcsin, Real.cos, Real.sin, Real.pi⟩ pt →
      0 ≤ pt.1 ∧ pt.1 ≤ w ∧ 0 ≤ pt.2 ∧ pt.2 ≤ h := by
  intro pt hpt
  have hle := (clip_angles_le_iff r1 w h hr hw hw2 hh hh2).mpr hcorner
  obtain ⟨piece, hmem, hc⟩ := hpt
  rcases fourArcs_piece_cases ⟨Real.arccos, Real.arcsin, Real.cos, Real.sin, Real.pi⟩
      (0 + (w / 2 - r1)) (0 + (h / 2 - r1)) (2 * r1)
      (Real.arccos (w / (2 * r1)) * 180 / Real.pi) (Real.arcsin (h / (2 * r1)) * 180 / Real.pi)
      [PathElement.addEllipse (r1 - r2 + (w / 2 - r1)) (r1 - r2 + (h / 2 - r1)) (2 * r2) (2 * r2)]
      piece hmem with
    ⟨start, hs, rfl⟩ | ⟨s1, t1, s2, t2, hs1, ht1, hs2, ht2, rfl⟩
  · obtain ⟨t, ht0, ht1, hpt⟩ := hc
    exact arcs_in_footprint r1 w h hr hw hw2 hh hh2 hle t ht0 ht1 start hs pt hpt
  · refine segment_in_footprint w h _ _ pt ?_ ?_ hc
    · exact arcs_in_footprint r1 w h hr hw hw2 hh hh2 hle t1
        (by rcases ht1 with rfl | rfl <;> norm_num) (by rcases ht1 with rfl | rfl <;> norm_num)
        s1 hs1 _ rfl
    · exact arcs_in_footprint r1 w h hr hw hw2 hh hh2 hle t2
        (by rcases ht2 with rfl | rfl <;> norm_num) (by rcases ht2 with rfl | rfl <;> norm_num)
        s2 hs2 _ rfl

/-- The start of the first arc is a point of the outer contour. -/
theorem first_arc_start_on_contour (m : CMath ℝ) (r1 r2 w h waste : ℝ) (id : String) :
    ((FrameCd.new m r1 r2 w h waste id).path false).OnOuterContour m
      (arcPoint m (0 + (w / 2 - r1)) (0 + (h / 2 - r1)) (2 * r1) (2 * r1)
        (m.acos (w / (2 * r1)) * 180 / m.M_PI +
          0 * (m.asin (h / (2 * r1)) * 180 / m.M_PI - m.acos (w / (2 * r1)) * 180 / m.M_PI))) :=
  ⟨Piece.arc (0 + (w / 2 - r1)) (0 + (h / 2 - r1)) (2 * r1) (2 * r1)
      (m.acos (w / (2 * r1)) * 180 / m.M_PI)
      (m.asin (h / (2 * r1)) * 180 / m.M_PI - m.acos (w / (2 * r1)) * 180 / m.M_PI),
    List.Mem.tail _ (List.Mem.head _), 0, le_refl 0, zero_le_one, rfl⟩

/-- Instance of C1 (amended) at `R = 60`, `W = 100`, `H = 80`, where
`100^2 + 80^2 >= 120^2`: the contour stays in `[0,100] x [0,80]`, and it is not
empty. -/
theorem outer_contour_within_footprint_witness :
    ((0 : ℝ) < 60 ∧ (0 : ℝ) < 100 ∧ (100 : ℝ) ≤ 2 * 60 ∧ (0 : ℝ) < 80 ∧ (80 : ℝ) ≤ 2 * 60 ∧
      (4 : ℝ) * 60 ^ 2 ≤ 100 ^ 2 + 80 ^ 2) ∧
    (∀ pt : ℝ × ℝ,
      ((FrameCd.new ⟨Real.arccos, Real.arcsin, Real.cos, Real.sin, Real.pi⟩
        60 7.5 100 80 0 "CD").path false).OnOuterContour
          ⟨Real.arccos, Real.arcsin, Real.cos, Real.sin, Real.pi⟩ pt →
      0 ≤ pt.1 ∧ pt.1 ≤ 100 ∧ 0 ≤ pt.2 ∧ pt.2 ≤ 80) ∧
    ∃ pt : ℝ × ℝ,
      ((FrameCd.new ⟨Real.arccos, Real.arcsin, Real.cos, Real.sin, Real.pi⟩
        60 7.5 100 80 0 "CD").path false).OnOuterContour
          ⟨Real.arccos, Real.arcsin, Real.cos, Real.sin, Real.pi⟩ pt :=
  ⟨⟨by norm_num, by norm_num, by norm_num, by norm_num, by norm_num, by norm_num⟩,
   outer_contour_within_footprint 60 7.5 100 80 0 "CD" (by norm_num) (by norm_num)
     (by norm_num) (by norm_num) (by norm_num) (by norm_num),
   ⟨_, first_arc_start_on_contour _ 60 7.5 100 80 0 "CD"⟩⟩

/-- Claim C1, against the claim as stated. The business-card CD of the spec, `R = 60`,
`W = 85`, `H = 54`, satisfies `r1 > 0`, `0 < w <= 2*r1`, `0 < h <= 2*r1`, yet
the start of its first arc, a point of the outer contour of `path(false)`, has
`x = 85` and `y < 0`: it lies outside `[0,85] x [0,54]`. -/
theorem business_card_contour_leaves_footprint :
    ((0 : ℝ) < 60 ∧ (0 : ℝ) < 85 ∧ (85 : ℝ) ≤ 2 * 60 ∧ (0 : ℝ) < 54 ∧ (54 : ℝ) ≤ 2 * 60) ∧
    ∃ pt : ℝ × ℝ,
      ((FrameCd.new ⟨Real.arccos, Real.arcsin, Real.cos, Real.sin, Real.pi⟩
        60 7.5 85 54 0 "CD").path false).OnOuterContour
          ⟨Real.arccos, Real.arcsin, Real.cos, Real.sin, Real.pi⟩ pt ∧
      pt.1 = 85 ∧ pt.2 < 0 ∧ ¬ (0 ≤ pt.1 ∧ pt.1 ≤ 85 ∧ 0 ≤ pt.2 ∧ pt.2 ≤ 54) := by
  refine ⟨⟨by norm_num, by norm_num, by norm_num, by norm_num, by norm_num⟩, _,
    first_arc_start_on_contour _ 60 7.5 85 54 0 "CD", ?_⟩
  have hpi := Real.pi_ne_zero
  have hx : (85 : ℝ) / (2 * 60) = 17 / 24 := by norm_num
  have hang : (Real.arccos (17 / 24) * 180 / Real.pi +
      0 * (Real.arcsin (54 / (2 * 60)) * 180 / Real.pi - Real.arccos (17 / 24) * 180 / Real.pi)) *
      Real.pi / 180 = Real.arccos (17 / 24) := by
    field_simp
  have hsqrt : (9 : ℝ) / 20 < Real.sqrt (1 - (17 / 24) ^ 2) := by
    rw [Real.lt_sqrt (by norm_num)]
    norm_num
  have hy : (arcPoint ⟨Real.arccos, Real.arcsin, Real.cos, Real.sin, Real.pi⟩
      (0 + (85 / 2 - 60)) (0 + (54 / 2 - 60)) (2 * 60) (2 * 60)
      (Real.arccos (85 / (2 * 60)) * 180 / Real.pi +
        0 * (Real.arcsin (54 / (2 * 60)) * 180 / Real.pi -
          Real.arccos (85 / (2 * 60)) * 180 / Real.pi))).2 < 0 := by
    rw [frame_arcPoint, hx, hang, Real.sin_arccos]
    simp only
    linarith
  have hx1 : (arcPoint ⟨Real.arccos, Real.arcsin, Real.cos, Real.sin, Real.pi⟩
      (0 + (85 / 2 - 60)) (0 + (54 / 2 - 60)) (2 * 60) (2 * 60)
      (Real.arccos (85 / (2 * 60)) * 180 / Real.pi +
        0 * (Real.arcsin (54 / (2 * 60)) * 180 / Real.pi -
          Real.arccos (85 / (2 * 60)) * 180 / Real.pi))).1 = 85 := by
    rw [frame_arcPoint, hx, hang, Real.cos_arccos (by norm_num) (by norm_num)]
    norm_num
  exact ⟨hx1, hy, fun hin => absurd hin.2.2.1 (not_le.mpr hy)⟩

/-- Every point at distance 1 from the origin is `(cos φ, sin φ)` for an angle `φ`
between 0 and a full turn. -/
theorem exists_angle_of_unit (u v : ℝ) (huv : u ^ 2 + v ^ 2 = 1) :
    ∃ φ : ℝ, 0 ≤ φ ∧ φ ≤ 2 * Real.pi ∧ Real.cos φ = u ∧ Real.sin φ = v := by
  have hpi := Real.pi_pos
  have hu1 : -1 ≤ u := by nlinarith [sq_nonneg v, sq_nonneg (u + 1)]
  have hu2 : u ≤ 1 := by nlinarith [sq_nonneg v, sq_nonneg (u - 1)]
  have hsq : 1 - u ^ 2 = v ^ 2 := by linarith
  rcases le_or_lt 0 v with hv | hv
  · refine ⟨Real.arccos u, Real.arccos_nonneg u, ?_, Real.cos_arccos hu1 hu2, ?_⟩
    · have := Real.arccos_le_pi u; linarith
    · rw [Real.sin_arccos, hsq, Real.sqrt_sq hv]
  · refine ⟨2 * Real.pi - Real.arccos u, ?_, ?_, ?_, ?_⟩
    · have := Real.arccos_le_pi u; linarith
    · have := Real.arccos_nonneg u; linarith
    · rw [Real.cos_two_pi_sub, Real.cos_arccos hu1 hu2]
    · rw [Real.sin_two_pi_sub, Real.sin_arccos, hsq, Real.sqrt_sq_eq_abs, abs_of_neg hv, neg_neg]

/-- An arc point of the circle inscribed in the square `(0, 0, 2R, 2R)`. -/
theorem disc_arcPoint (R a : ℝ) :
    arcPoint ⟨Real.arccos, Real.arcsin, Real.cos, Real.sin, Real.pi⟩ 0 0 (2 * R) (2 * R) a =
      (R + R * Real.cos (a * Real.pi / 180), R - R * Real.sin (a * Real.pi / 180)) := by
  rw [arcPoint_real]
  refine Prod.ext ?_ ?_ <;> simp only <;> ring

/-- Every arc point of the inscribed circle is at distance `R` from `(R, R)`. -/
theorem disc_arcPoint_dist (R a : ℝ) :
    ((arcPoint ⟨Real.arccos, Real.arcsin, Real.cos, Real.sin, Real.pi⟩ 0 0 (2 * R) (2 * R) a).1
        - R) ^ 2 +
      ((arcPoint ⟨Real.arccos, Real.arcsin, Real.cos, Real.sin, Real.pi⟩ 0 0 (2 * R) (2 * R) a).2
        - R) ^ 2 = R ^ 2 := by
  rw [disc_arcPoint]
  simp only
  have := Real.sin_sq_add_cos_sq (a * Real.pi / 180)
  nlinarith

/-- Every point at distance `R` from `(R, R)` lies on one of the four quarter
arcs starting at 0, 90, 180 and 270 degrees. -/
theorem circle_point_on_quarter_arc (R : ℝ) (hR : 0 < R) (pt : ℝ × ℝ)
    (hpt : (pt.1 - R) ^ 2 + (pt.2 - R) ^ 2 = R ^ 2) :
    ∃ start : ℝ, (start = 0 ∨ start = 90 ∨ start = 180 ∨ start = 270) ∧
      ∃ t : ℝ, 0 ≤ t ∧ t ≤ 1 ∧
        pt = arcPoint ⟨Real.arccos, Real.arcsin, Real.cos, Real.sin, Real.pi⟩ 0 0 (2 * R) (2 * R)
          (start + t * 90) := by
  have hpi := Real.pi_pos
  have hRne : R ≠ 0 := hR.ne'
  obtain ⟨φ, h0, h2, hc, hs⟩ := exists_angle_of_unit ((pt.1 - R) / R) ((R - pt.2) / R) (by
    field_simp
    nlinarith)
  have hx : pt.1 = R + R * Real.cos φ := by rw [hc]; field_simp
  have hy : pt.2 = R - R * Real.sin φ := by rw [hs]; field_simp
  have hpoint : ∀ start t : ℝ, (start + t * 90) * Real.pi / 180 = φ →
      pt = arcPoint ⟨Real.arccos, Real.arcsin, Real.cos, Real.sin, Real.pi⟩ 0 0 (2 * R) (2 * R)
        (start + t * 90) := by
    intro start t he
    rw [disc_arcPoint, he]
    exact Prod.ext hx hy
  have hq : ∀ k : ℝ, k * (Real.pi / 2) ≤ φ → φ ≤ (k + 1) * (Real.pi / 2) →
      ∃ t : ℝ, 0 ≤ t ∧ t ≤ 1 ∧ (k * 90 + t * 90) * Real.pi / 180 = φ := by
    intro k hk1 hk2
    refine ⟨(φ - k * (Real.pi / 2)) / (Real.pi / 2), ?_, ?_, ?_⟩
    · exact div_nonneg (by linarith) (by linarith)
    · rw [div_le_one (by linarith)]; linarith
    · field_simp
      ring
  rcases le_total φ (Real.pi / 2) with h1 | h1
  · obtain ⟨t, ht0, ht1, he⟩ := hq 0 (by linarith) (by linarith)
    exact ⟨0, Or.inl rfl, t, ht0, ht1, hpoint 0 t (by rw [← he]; ring)⟩
  rcases le_total φ Real.pi with h3 | h3
  · obtain ⟨t, ht0, ht1, he⟩ := hq 1 (by linarith) (by linarith)
    exact ⟨90, Or.inr (Or.inl rfl), t, ht0, ht1, hpoint 90 t (by rw [← he]; ring)⟩
  rcases le_total φ (3 * (Real.pi / 2)) with h4 | h4
  · obtain ⟨t, ht0, ht1, he⟩ := hq 2 (by linarith) (by linarith)
    exact ⟨180, Or.inr (Or.inr (Or.inl rfl)), t, ht0, ht1, hpoint 180 t (by rw [← he]; ring)⟩
  · obtain ⟨t, ht0, ht1, he⟩ := hq 3 (by linarith) (by linarith)
    exact ⟨270, Or.inr (Or.inr (Or.inr rfl)), t, ht0, ht1, hpoint 270 t (by rw [← he]; ring)⟩



/-- A right angle in degrees. -/
theorem deg_of_half_pi : Real.pi / 2 * 180 / Real.pi = 90 := by
  have := Real.pi_ne_zero
  field_simp
  ring

/-- The elements of the un-rotated outline of an unclipped frame. -/
theorem full_disc_elements (R r2 waste : ℝ) (id : String) (hR : 0 < R) :
    (FrameCd.new ⟨Real.arccos, Real.arcsin, Real.cos, Real.sin, Real.pi⟩ R r2 (2 * R) (2 * R)
        waste id).path false =
      ⟨[PathElement.arcMoveTo 0 0 (2 * R) (2 * R) 0,
        PathElement.arcTo 0 0 (2 * R) (2 * R) 0 90,
        PathElement.arcTo 0 0 (2 * R) (2 * R) 90 90,
        PathElement.arcTo 0 0 (2 * R) (2 * R) 180 90,
        PathElement.arcTo 0 0 (2 * R) (2 * R) 270 90,
        PathElement.closeSubpath,
        PathElement.addEllipse (R - r2) (R - r2) (2 * r2) (2 * r2)]⟩ := by
  have e1 : 2 * R / (2 * R) = 1 := div_self (by positivity)
  have e2 : 2 * R / 2 - R = 0 := by ring
  simp only [FrameCd.path, FrameCd.new, QPainterPath.empty, QPainterPath.arcMoveTo,
    QPainterPath.arcTo, QPainterPath.closeSubpath, QPainterPath.addEllipse,
    QPainterPath.translate, PathElement.translate, List.nil_append, List.cons_append,
    List.map_cons, List.map_nil, Bool.false_eq_true, if_false, e1, e2,
    Real.arccos_one, Real.arcsin_one, deg_of_half_pi, add_zero, zero_mul, zero_div, sub_zero]
  norm_num

/-- A point of a segment whose two ends coincide is that end. -/
theorem line_self_contains (m : CMath ℝ) (p q pt : ℝ × ℝ) (hpq : p = q)
    (hpt : Piece.Contains m (Piece.line p q) pt) : pt = q := by
  obtain ⟨t, _, _, rfl⟩ := hpt
  subst hpq
  refine Prod.ext ?_ ?_ <;> simp


/-- The pieces of the outer contour of the unclipped outline. -/
theorem full_disc_contour (R : ℝ) (rest : List (PathElement ℝ)) :
    QPainterPath.outerContour ⟨Real.arccos, Real.arcsin, Real.cos, Real.sin, Real.pi⟩
        (⟨[PathElement.arcMoveTo 0 0 (2 * R) (2 * R) 0,
          PathElement.arcTo 0 0 (2 * R) (2 * R) 0 90,
          PathElement.arcTo 0 0 (2 * R) (2 * R) 90 90,
          PathElement.arcTo 0 0 (2 * R) (2 * R) 180 90,
          PathElement.arcTo 0 0 (2 * R) (2 * R) 270 90,
          PathElement.closeSubpath] ++ rest⟩ : QPainterPath ℝ) =
        [Piece.line
           (arcPoint ⟨Real.arccos, Real.arcsin, Real.cos, Real.sin, Real.pi⟩ 0 0 (2 * R) (2 * R) 0)
           (arcPoint ⟨Real.arccos, Real.arcsin, Real.cos, Real.sin, Real.pi⟩ 0 0 (2 * R) (2 * R) 0),
         Piece.arc 0 0 (2 * R) (2 * R) 0 90,
         Piece.line
           (arcPoint ⟨Real.arccos, Real.arcsin, Real.cos, Real.sin, Real.pi⟩ 0 0 (2 * R) (2 * R)
             (0 + 90))
           (arcPoint ⟨Real.arccos, Real.arcsin, Real.cos, Real.sin, Real.pi⟩ 0 0 (2 * R) (2 * R)
             90),
         Piece.arc 0 0 (2 * R) (2 * R) 90 90,
         Piece.line
           (arcPoint ⟨Real.arccos, Real.arcsin, Real.cos, Real.sin, Real.pi⟩ 0 0 (2 * R) (2 * R)
             (90 + 90))
           (arcPoint ⟨Real.arccos, Real.arcsin, Real.cos, Real.sin, Real.pi⟩ 0 0 (2 * R) (2 * R)
             180),
         Piece.arc 0 0 (2 * R) (2 * R) 180 90,
         Piece.line
           (arcPoint ⟨Real.arccos, Real.arcsin, Real.cos, Real.sin, Real.pi⟩ 0 0 (2 * R) (2 * R)
             (180 + 90))
           (arcPoint ⟨Real.arccos, Real.arcsin, Real.cos, Real.sin, Real.pi⟩ 0 0 (2 * R) (2 * R)
             270),
         Piece.arc 0 0 (2 * R) (2 * R) 270 90,
         Piece.line
           (arcPoint ⟨Real.arccos, Real.arcsin, Real.cos, Real.sin, Real.pi⟩ 0 0 (2 * R) (2 * R)
             (270 + 90))
           (arcPoint ⟨Real.arccos, Real.arcsin, Real.cos, Real.sin, Real.pi⟩ 0 0 (2 * R) (2 * R)
             0)] := by
  simp only [QPainterPath.outerContour, List.cons_append, List.nil_append, firstSubpath,
    tracePieces, PathElement.trace, List.append_nil]

/-- Claim C4. For every `R > 0`, a `FrameCd` constructed with `w = h = 2*R` has clip
angles 0 and 90 degrees and no translation: its four arcs start at 0, 90, 180
and 270 degrees with sweep 90 each. Together they cover the full circle: a
point lies on the outer contour of `path(false)` if and only if it is at
distance exactly `R` from the centre `(R, R)`. -/
theorem full_disc_outline (R r2 waste : ℝ) (id : String) (hR : 0 < R) :
    ((FrameCd.new ⟨Real.arccos, Real.arcsin, Real.cos, Real.sin, Real.pi⟩ R r2 (2 * R) (2 * R)
        waste id).path false).elements =
      [PathElement.arcMoveTo 0 0 (2 * R) (2 * R) 0,
       PathElement.arcTo 0 0 (2 * R) (2 * R) 0 90,
       PathElement.arcTo 0 0 (2 * R) (2 * R) 90 90,
       PathElement.arcTo 0 0 (2 * R) (2 * R) 180 90,
       PathElement.arcTo 0 0 (2 * R) (2 * R) 270 90,
       PathElement.closeSubpath,
       PathElement.addEllipse (R - r2) (R - r2) (2 * r2) (2 * r2)] ∧
    ∀ pt : ℝ × ℝ,
      ((FrameCd.new ⟨Real.arccos, Real.arcsin, Real.cos, Real.sin, Real.pi⟩ R r2 (2 * R) (2 * R)
        waste id).path false).OnOuterContour
          ⟨Real.arccos, Real.arcsin, Real.cos, Real.sin, Real.pi⟩ pt ↔
        (pt.1 - R) ^ 2 + (pt.2 - R) ^ 2 = R ^ 2 := by
  rw [full_disc_elements R r2 waste id hR]
  refine ⟨rfl, fun pt => ?_⟩
  have hcontour := full_disc_contour R
    [PathElement.addEllipse (R - r2) (R - r2) (2 * r2) (2 * r2)]
  simp only [List.cons_append, List.nil_append] at hcontour
  unfold QPainterPath.OnOuterContour
  rw [hcontour]
  constructor
  · rintro ⟨piece, hmem, hc⟩
    simp only [List.mem_cons, List.mem_singleton, List.not_mem_nil, or_false] at hmem
    have harc : ∀ start : ℝ, Piece.Contains ⟨Real.arccos, Real.arcsin, Real.cos, Real.sin, Real.pi⟩
        (Piece.arc 0 0 (2 * R) (2 * R) start 90) pt →
        (pt.1 - R) ^ 2 + (pt.2 - R) ^ 2 = R ^ 2 := by
      rintro start ⟨t, _, _, rfl⟩
      exact disc_arcPoint_dist R _
    have hline : ∀ a b : ℝ,
        arcPoint ⟨Real.arccos, Real.arcsin, Real.cos, Real.sin, Real.pi⟩ 0 0 (2 * R) (2 * R) a =
          arcPoint ⟨Real.arccos, Real.arcsin, Real.cos, Real.sin, Real.pi⟩ 0 0 (2 * R) (2 * R) b →
        Piece.Contains ⟨Real.arccos, Real.arcsin, Real.cos, Real.sin, Real.pi⟩
          (Piece.line
            (arcPoint ⟨Real.arccos, Real.arcsin, Real.cos, Real.sin, Real.pi⟩ 0 0 (2 * R) (2 * R) a)
            (arcPoint ⟨Real.arccos, Real.arcsin, Real.cos, Real.sin, Real.pi⟩ 0 0 (2 * R) (2 * R) b))
          pt →
        (pt.1 - R) ^ 2 + (pt.2 - R) ^ 2 = R ^ 2 := by
      intro a b hab hcont
      rw [line_self_contains _ _ _ pt hab hcont]
      exact disc_arcPoint_dist R b
    rcases hmem with rfl | rfl | rfl | rfl | rfl | rfl | rfl | rfl | rfl
    · exact hline 0 0 rfl hc
    · exact harc 0 hc
    · exact hline (0 + 90) 90 (by norm_num) hc
    · exact harc 90 hc
    · exact hline (90 + 90) 180 (by norm_num) hc
    · exact harc 180 hc
    · exact hline (180 + 90) 270 (by norm_num) hc
    · exact harc 270 hc
    · refine hline (270 + 90) 0 ?_ hc
      rw [disc_arcPoint, disc_arcPoint]
      have e : ((270 : ℝ) + 90) * Real.pi / 180 = 2 * Real.pi := by ring
      rw [e, Real.cos_two_pi, Real.sin_two_pi]
      simp
  · intro hpt
    obtain ⟨start, hs, t, ht0, ht1, hpt'⟩ := circle_point_on_quarter_arc R hR pt hpt
    refine ⟨Piece.arc 0 0 (2 * R) (2 * R) start 90, ?_, t, ht0, ht1, hpt'⟩
    rcases hs with rfl | rfl | rfl | rfl <;> simp

/-- Instance of C4 at the standard CD, `R = 60`, `r2 = 7.5`, `W = H = 120`: the outer
contour is the circle of radius 60 centred at `(60, 60)`. -/
theorem full_disc_outline_witness :
    (0 : ℝ) < 60 ∧
    ((FrameCd.new ⟨Real.arccos, Real.arcsin, Real.cos, Real.sin, Real.pi⟩ 60 7.5 120 120
        0 "CD").path false).elements =
      [PathElement.arcMoveTo 0 0 120 120 0,
       PathElement.arcTo 0 0 120 120 0 90,
       PathElement.arcTo 0 0 120 120 90 90,
       PathElement.arcTo 0 0 120 120 180 90,
       PathElement.arcTo 0 0 120 120 270 90,
       PathElement.closeSubpath,
       PathElement.addEllipse (60 - 7.5) (60 - 7.5) (2 * 7.5) (2 * 7.5)] ∧
    ∀ pt : ℝ × ℝ,
      ((FrameCd.new ⟨Real.arccos, Real.arcsin, Real.cos, Real.sin, Real.pi⟩ 60 7.5 120
        120 0 "CD").path false).OnOuterContour
          ⟨Real.arccos, Real.arcsin, Real.cos, Real.sin, Real.pi⟩ pt ↔
        (pt.1 - 60) ^ 2 + (pt.2 - 60) ^ 2 = 60 ^ 2 := by
  have key := full_disc_outline 60 7.5 0 "CD" (by norm_num)
  have e : (2 : ℝ) * 60 = 120 := by norm_num
  rw [e] at key
  exact ⟨by norm_num, key⟩

/-- Claim C2. The constructor at `w = 0` and at `w = 2*r1`, for `r1 = 60`, `r2 = 7.5`.
With `w = 0`, `h = 120` the code computes `theta1 = acos(0) = 90` degrees and
translates by `0/2 - 60 = -60`: the four arcs have sweep 0 and the hole lies at
`x = -7.5`. With `w = h = 0` (a plain CD) the arcs start at 90, 180, 270, 360
with sweep -90 and everything is translated by `(-60, -60)`. With
`w = h = 120` it computes `theta1 = 0`, `theta2 = 90`, sweep 90 and no
translation. So the outline built for a stored 0 is not the outline built for
the full diameter, although `w()` reports 120 for the stored 0. -/
theorem zero_width_path_differs :
    ((FrameCd.new ⟨Real.arccos, Real.arcsin, Real.cos, Real.sin, Real.pi⟩ 60 7.5 0 120 0
        "CD").path false).elements =
      [PathElement.arcMoveTo (-60) 0 120 120 90,
       PathElement.arcTo (-60) 0 120 120 90 0,
       PathElement.arcTo (-60) 0 120 120 90 0,
       PathElement.arcTo (-60) 0 120 120 270 0,
       PathElement.arcTo (-60) 0 120 120 270 0,
       PathElement.closeSubpath,
       PathElement.addEllipse (-7.5) 52.5 15 15] ∧
    ((FrameCd.new ⟨Real.arccos, Real.arcsin, Real.cos, Real.sin, Real.pi⟩ 60 7.5 0 0 0
        "CD").path false).elements =
      [PathElement.arcMoveTo (-60) (-60) 120 120 90,
       PathElement.arcTo (-60) (-60) 120 120 90 (-90),
       PathElement.arcTo (-60) (-60) 120 120 180 (-90),
       PathElement.arcTo (-60) (-60) 120 120 270 (-90),
       PathElement.arcTo (-60) (-60) 120 120 360 (-90),
       PathElement.closeSubpath,
       PathElement.addEllipse (-7.5) (-7.5) 15 15] ∧
    ((FrameCd.new ⟨Real.arccos, Real.arcsin, Real.cos, Real.sin, Real.pi⟩ 60 7.5 120 120 0
        "CD").path false).elements =
      [PathElement.arcMoveTo 0 0 120 120 0,
       PathElement.arcTo 0 0 120 120 0 90,
       PathElement.arcTo 0 0 120 120 90 90,
       PathElement.arcTo 0 0 120 120 180 90,
       PathElement.arcTo 0 0 120 120 270 90,
       PathElement.closeSubpath,
       PathElement.addEllipse 52.5 52.5 15 15] ∧
    (FrameCd.new ⟨Real.arccos, Real.arcsin, Real.cos, Real.sin, Real.pi⟩ 60 7.5 0 120 0
        "CD").path false ≠
      (FrameCd.new ⟨Real.arccos, Real.arcsin, Real.cos, Real.sin, Real.pi⟩ 60 7.5 120 120 0
        "CD").path false ∧
    (FrameCd.new ⟨Real.arccos, Real.arcsin, Real.cos, Real.sin, Real.pi⟩ 60 7.5 0 0 0
        "CD").path false ≠
      (FrameCd.new ⟨Real.arccos, Real.arcsin, Real.cos, Real.sin, Real.pi⟩ 60 7.5 120 120 0
        "CD").path false ∧
    (FrameCd.new ⟨Real.arccos, Real.arcsin, Real.cos, Real.sin, Real.pi⟩ 60 7.5 0 120 0
        "CD").w = 120 := by
  have e1 : (2 : ℝ) * 60 = 120 := by norm_num
  have e2 : (120 : ℝ) / 120 = 1 := by norm_num
  have h0 : ((FrameCd.new ⟨Real.arccos, Real.arcsin, Real.cos, Real.sin, Real.pi⟩ 60 7.5 0 120 0
        "CD").path false).elements =
      [PathElement.arcMoveTo (-60) 0 120 120 90,
       PathElement.arcTo (-60) 0 120 120 90 0,
       PathElement.arcTo (-60) 0 120 120 90 0,
       PathElement.arcTo (-60) 0 120 120 270 0,
       PathElement.arcTo (-60) 0 120 120 270 0,
       PathElement.closeSubpath,
       PathElement.addEllipse (-7.5) 52.5 15 15] := by
    simp only [FrameCd.path, FrameCd.new, QPainterPath.empty, QPainterPath.arcMoveTo,
      QPainterPath.arcTo, QPainterPath.closeSubpath, QPainterPath.addEllipse,
      QPainterPath.translate, PathElement.translate, List.nil_append, List.cons_append,
      List.map_cons, List.map_nil, Bool.false_eq_true, if_false, e1, e2, zero_div,
      Real.arccos_zero, Real.arcsin_one, deg_of_half_pi]
    norm_num
  have h00 : ((FrameCd.new ⟨Real.arccos, Real.arcsin, Real.cos, Real.sin, Real.pi⟩ 60 7.5 0 0 0
        "CD").path false).elements =
      [PathElement.arcMoveTo (-60) (-60) 120 120 90,
       PathElement.arcTo (-60) (-60) 120 120 90 (-90),
       PathElement.arcTo (-60) (-60) 120 120 180 (-90),
       PathElement.arcTo (-60) (-60) 120 120 270 (-90),
       PathElement.arcTo (-60) (-60) 120 120 360 (-90),
       PathElement.closeSubpath,
       PathElement.addEllipse (-7.5) (-7.5) 15 15] := by
    simp only [FrameCd.path, FrameCd.new, QPainterPath.empty, QPainterPath.arcMoveTo,
      QPainterPath.arcTo, QPainterPath.closeSubpath, QPainterPath.addEllipse,
      QPainterPath.translate, PathElement.translate, List.nil_append, List.cons_append,
      List.map_cons, List.map_nil, Bool.false_eq_true, if_false, e1, e2, zero_div,
      Real.arccos_zero, Real.arcsin_zero, deg_of_half_pi, zero_mul]
    norm_num
  have h1 : ((FrameCd.new ⟨Real.arccos, Real.arcsin, Real.cos, Real.sin, Real.pi⟩ 60 7.5 120 120 0
        "CD").path false).elements =
      [PathElement.arcMoveTo 0 0 120 120 0,
       PathElement.arcTo 0 0 120 120 0 90,
       PathElement.arcTo 0 0 120 120 90 90,
       PathElement.arcTo 0 0 120 120 180 90,
       PathElement.arcTo 0 0 120 120 270 90,
       PathElement.closeSubpath,
       PathElement.addEllipse 52.5 52.5 15 15] := by
    simp only [FrameCd.path, FrameCd.new, QPainterPath.empty, QPainterPath.arcMoveTo,
      QPainterPath.arcTo, QPainterPath.closeSubpath, QPainterPath.addEllipse,
      QPainterPath.translate, PathElement.translate, List.nil_append, List.cons_append,
      List.map_cons, List.map_nil, Bool.false_eq_true, if_false, e1, e2, zero_div,
      Real.arccos_one, Real.arcsin_one, deg_of_half_pi]
    norm_num
  refine ⟨h0, h00, h1, fun hEq => ?_, fun hEq => ?_, ?_⟩
  · have hel := congrArg QPainterPath.elements hEq
    rw [h0, h1] at hel
    have hx := (PathElement.arcMoveTo.inj (List.cons.inj hel).1).1
    norm_num at hx
  · have hel := congrArg QPainterPath.elements hEq
    rw [h00, h1] at hel
    have hx := (PathElement.arcMoveTo.inj (List.cons.inj hel).1).1
    norm_num at hx
  · show (if (0 : ℝ) = 0 then 2 * (60 : ℝ) else 0) = 120
    norm_num

/-! ## Point ordering is a strict total order -/

/-- Claim C11. `Point::operator<` is a strict total order on points with real
coordinates, consistent with equality by fields: for all points `a`, `b`, `c`,
not `a < a`; `a < b` and `b < c` imply `a < c`; exactly one of `a < b`,
`b < a`, (`a.x = b.x` and `a.y = b.y`) holds; so two points are incomparable
only when both coordinates match. -/
theorem Point.lt_strict_total_order (a b c : Point ℝ) :
    ¬ a.lt a = true ∧
    (a.lt b = true → b.lt c = true → a.lt c = true) ∧
    ((a.lt b = true ∧ ¬ b.lt a = true ∧ ¬ (a.mX = b.mX ∧ a.mY = b.mY)) ∨
     (¬ a.lt b = true ∧ b.lt a = true ∧ ¬ (a.mX = b.mX ∧ a.mY = b.mY)) ∨
     (¬ a.lt b = true ∧ ¬ b.lt a = true ∧ (a.mX = b.mX ∧ a.mY = b.mY))) ∧
    (¬ a.lt b = true → ¬ b.lt a = true → a = b) := by
  simp only [Point.lt_eq_true_iff]
  refine ⟨?_, ?_, ?_, ?_⟩
  · rintro (h | ⟨_, h⟩) <;> exact lt_irrefl _ h
  · rintro (h1 | ⟨h1, h1'⟩) (h2 | ⟨h2, h2'⟩)
    · exact Or.inl (lt_trans h1 h2)
    · exact Or.inl (h2 ▸ h1)
    · exact Or.inl (h1 ▸ h2)
    · exact Or.inr ⟨h1.trans h2, lt_trans h1' h2'⟩
  · rcases lt_trichotomy a.mY b.mY with hy | hy | hy
    · refine Or.inl ⟨Or.inl hy, ?_, ?_⟩
      · rintro (h | ⟨h, _⟩) <;> linarith
      · rintro ⟨_, h⟩; linarith
    · rcases lt_trichotomy a.mX b.mX with hx | hx | hx
      · refine Or.inl ⟨Or.inr ⟨hy, hx⟩, ?_, ?_⟩
        · rintro (h | ⟨_, h⟩) <;> linarith
        · rintro ⟨h, _⟩; linarith
      · refine Or.inr (Or.inr ⟨?_, ?_, hx, hy⟩)
        · rintro (h | ⟨_, h⟩) <;> linarith
        · rintro (h | ⟨_, h⟩) <;> linarith
      · refine Or.inr (Or.inl ⟨?_, Or.inr ⟨hy.symm, hx⟩, ?_⟩)
        · rintro (h | ⟨_, h⟩) <;> linarith
        · rintro ⟨h, _⟩; linarith
    · refine Or.inr (Or.inl ⟨?_, Or.inl hy, ?_⟩)
      · rintro (h | ⟨h, _⟩) <;> linarith
      · rintro ⟨_, h⟩; linarith
  · intro h1 h2
    have hy : a.mY = b.mY := by
      rcases lt_trichotomy a.mY b.mY with hy | hy | hy
      · exact absurd (Or.inl hy) h1
      · exact hy
      · exact absurd (Or.inl hy) h2
    have hx : a.mX = b.mX := by
      rcases lt_trichotomy a.mX b.mX with hx | hx | hx
      · exact absurd (Or.inr ⟨hy, hx⟩) h1
      · exact hx
      · exact absurd (Or.inr ⟨hy.symm, hx⟩) h2
    cases a
    cases b
    simp only at hx hy
    rw [hx, hy]

/-! ## Construction never fails -/

/-- Claim C12, as amended. The constructor contains no precondition check: for all
`r1`, `r2`, `w`, `h`, `waste` and `id`, whether or not they satisfy
`0 < W,H <= 2R` and `0 <= r2 <= R`, it yields a frame that stores the six
arguments as given, with both outlines built (seven elements each). -/
theorem constructor_never_rejects (m : CMath ℝ) (r1 r2 w h waste : ℝ) (id : String) :
    ∃ f : FrameCd ℝ, FrameCd.new m r1 r2 w h waste id = f ∧
      f.mR1 = r1 ∧ f.mR2 = r2 ∧ f.mW = w ∧ f.mH = h ∧ f.mWaste = waste ∧ f.mId = id ∧
      (f.path false).elements.length = 7 ∧ (f.path true).elements.length = 7 :=
  ⟨_, rfl, rfl, rfl, rfl, rfl, rfl, rfl, rfl, rfl⟩

/-- Claim C12, against the claim as stated. Parameters that violate the invariants
are not rejected. Each of `w = 200 > 2*60`, `h = 200 > 2*60`, `w = -85 < 0`,
`r1 = 0`, `r2 = 70 > r1` and `r2 = -1 < 0` is accepted by the constructor,
which yields a frame holding the offending value. -/
theorem constructor_accepts_invalid_parameters :
    ((2 : ℝ) * 60 < 200 ∧ (-85 : ℝ) < 0 ∧ ¬ ((0 : ℝ) < 0) ∧ (60 : ℝ) < 70 ∧ (-1 : ℝ) < 0) ∧
    (∃ f : FrameCd ℝ, FrameCd.new ⟨Real.arccos, Real.arcsin, Real.cos, Real.sin, Real.pi⟩
      60 7.5 200 54 0 "CD" = f ∧ f.mR1 = 60 ∧ f.mW = 200) ∧
    (∃ f : FrameCd ℝ, FrameCd.new ⟨Real.arccos, Real.arcsin, Real.cos, Real.sin, Real.pi⟩
      60 7.5 85 200 0 "CD" = f ∧ f.mR1 = 60 ∧ f.mH = 200) ∧
    (∃ f : FrameCd ℝ, FrameCd.new ⟨Real.arccos, Real.arcsin, Real.cos, Real.sin, Real.pi⟩
      60 7.5 (-85) 54 0 "CD" = f ∧ f.mW = -85) ∧
    (∃ f : FrameCd ℝ, FrameCd.new ⟨Real.arccos, Real.arcsin, Real.cos, Real.sin, Real.pi⟩
      0 7.5 85 54 0 "CD" = f ∧ f.mR1 = 0) ∧
    (∃ f : FrameCd ℝ, FrameCd.new ⟨Real.arccos, Real.arcsin, Real.cos, Real.sin, Real.pi⟩
      60 70 85 54 0 "CD" = f ∧ f.mR1 = 60 ∧ f.mR2 = 70) ∧
    (∃ f : FrameCd ℝ, FrameCd.new ⟨Real.arccos, Real.arcsin, Real.cos, Real.sin, Real.pi⟩
      60 (-1) 85 54 0 "CD" = f ∧ f.mR2 = -1) :=
  ⟨⟨by norm_num, by norm_num, by norm_num, by norm_num, by norm_num⟩,
   ⟨_, rfl, rfl, rfl⟩, ⟨_, rfl, rfl, rfl⟩, ⟨_, rfl, rfl⟩, ⟨_, rfl, rfl⟩, ⟨_, rfl, rfl, rfl⟩,
   ⟨_, rfl, rfl⟩⟩

/-! ## The size description -/

/-- Claim C13. For every `FrameCd` and every unit, `sizeDescription(units)` describes
the disc diameter: the number formatted is `2 * r1 * units.unitsPerPoint()`; it
goes through the fraction formatter when `units.id()` is `"in"` and through the
`%.5g` conversion otherwise; the result is that number, the unit's name and
the (translated) word `"diameter"`, separated by single spaces, which is the
literal `"diameter"` when `tr` leaves it unchanged. Two frames with the same
`r1` have the same description, whatever their `w`, `h`, `r2` and `waste`. -/
theorem sizeDescription_is_diameter (fmt : StrFormat ℝ) (f : FrameCd ℝ) (units : Units ℝ) :
    f.sizeDescription fmt units =
      (if units.id = "in" then fmt.formatFraction (2 * f.mR1 * units.unitsPerPoint)
        else fmt.sprintf_5g (2 * f.mR1 * units.unitsPerPoint)) ++
        " " ++ units.name ++ " " ++ fmt.tr "diameter" ∧
    (fmt.tr "diameter" = "diameter" →
      f.sizeDescription fmt units =
        (if units.id = "in" then fmt.formatFraction (2 * f.mR1 * units.unitsPerPoint)
          else fmt.sprintf_5g (2 * f.mR1 * units.unitsPerPoint)) ++
          " " ++ units.name ++ " " ++ "diameter") ∧
    ∀ g : FrameCd ℝ, g.mR1 = f.mR1 → g.sizeDescription fmt units = f.sizeDescription fmt units := by
  have key : ∀ k : FrameCd ℝ, k.sizeDescription fmt units =
      (if units.id = "in" then fmt.formatFraction (2 * k.mR1 * units.unitsPerPoint)
        else fmt.sprintf_5g (2 * k.mR1 * units.unitsPerPoint)) ++
        " " ++ units.name ++ " " ++ fmt.tr "diameter" := by
    intro k
    unfold FrameCd.sizeDescription
    split_ifs <;> rfl
  refine ⟨key f, fun htr => ?_, fun g hg => ?_⟩
  · rw [key f, htr]
  · rw [key g, key f, hg]

/-- Instance of C13: a disc of radius 60 points described in millimetres and in inches,
with formatters that print fixed words, and a frame that differs in `r2`,
`w`, `h` and `waste`. -/
theorem sizeDescription_is_diameter_witness :
    (FrameCd.new ⟨Real.arccos, Real.arcsin, Real.cos, Real.sin, Real.pi⟩ 60 7.5 85 54 0
        "CD").sizeDescription ⟨fun _ => "frac", fun _ => "dec", fun s => s⟩ ⟨"mm", "mm", 1⟩ =
      "dec mm diameter" ∧
    (FrameCd.new ⟨Real.arccos, Real.arcsin, Real.cos, Real.sin, Real.pi⟩ 60 7.5 85 54 0
        "CD").sizeDescription ⟨fun _ => "frac", fun _ => "dec", fun s => s⟩ ⟨"in", "inches", 1⟩ =
      "frac inches diameter" ∧
    (FrameCd.new ⟨Real.arccos, Real.arcsin, Real.cos, Real.sin, Real.pi⟩ 60 20 0 0 3
        "X").sizeDescription ⟨fun _ => "frac", fun _ => "dec", fun s => s⟩ ⟨"in", "inches", 1⟩ =
      (FrameCd.new ⟨Real.arccos, Real.arcsin, Real.cos, Real.sin, Real.pi⟩ 60 7.5 85 54 0
        "CD").sizeDescription ⟨fun _ => "frac", fun _ => "dec", fun s => s⟩ ⟨"in", "inches", 1⟩ :=
  ⟨by decide, by decide,
   (sizeDescription_is_diameter ⟨fun _ => "frac", fun _ => "dec", fun s => s⟩
      (FrameCd.new ⟨Real.arccos, Real.arcsin, Real.cos, Real.sin, Real.pi⟩ 60 7.5 85 54 0 "CD")
      ⟨"in", "inches", 1⟩).2.2 _ rfl⟩

/-! ## Similarity ignores waste and id, and compares the stored footprint -/

/-- Claim C19. With `0 ≤ EPSILON`: for all `FrameCd` `f` and `g` with equal `r1`,
`r2`, stored `w` and stored `h`, `f.isSimilarTo(g)` is true, whatever their
waste values and identifiers are. -/
theorem isSimilarTo_ignores_waste_and_id {Other : Type} (EPSILON : ℝ) (hE : 0 ≤ EPSILON)
    (f g : FrameCd ℝ) (hR1 : f.mR1 = g.mR1) (hR2 : f.mR2 = g.mR2) (hW : f.mW = g.mW)
    (hH : f.mH = g.mH) :
    f.isSimilarTo EPSILON (Frame.cd g : Frame ℝ Other) = true := by
  rw [isSimilarTo_cd_iff, hR1, hR2, hW, hH]
  simp [hE]

/-- Instance of C19 at `EPSILON = 1/2`: two frames `(60, 7.5, 85, 54)` whose waste
values 0 and 10 differ by more than `EPSILON` and whose identifiers differ. -/
theorem isSimilarTo_ignores_waste_and_id_witness :
    (0 : ℝ) ≤ 1 / 2 ∧ (1 / 2 : ℝ) < |0 - 10| ∧
    (FrameCd.new ⟨Real.arccos, Real.arcsin, Real.cos, Real.sin, Real.pi⟩ 60 7.5 85 54 0
        "A").isSimilarTo (1 / 2)
      (Frame.cd (FrameCd.new ⟨Real.arccos, Real.arcsin, Real.cos, Real.sin, Real.pi⟩ 60 7.5 85
        54 10 "B") : Frame ℝ Unit) = true :=
  ⟨by norm_num, by norm_num [abs_of_neg],
   isSimilarTo_ignores_waste_and_id (1 / 2) (by norm_num) _ _ rfl rfl rfl rfl⟩

/-- Claim C20. For every `r1` with `2*r1 > EPSILON`, the frame `f` constructed with
`w = 0` and the frame `g` constructed with `w = 2*r1` (all other parameters
equal) have the same effective width, `f.w() = g.w() = 2*r1`, yet
`f.isSimilarTo(g)` is false; and likewise for `h`. -/
theorem isSimilarTo_compares_stored_footprint {Other : Type} (m : CMath ℝ) (EPSILON : ℝ)
    (r1 r2 w h waste : ℝ) (id : String) (hE : EPSILON < 2 * r1) :
    ((FrameCd.new m r1 r2 0 h waste id).w = 2 * r1 ∧
      (FrameCd.new m r1 r2 (2 * r1) h waste id).w = 2 * r1 ∧
      (FrameCd.new m r1 r2 0 h waste id).isSimilarTo EPSILON
        (Frame.cd (FrameCd.new m r1 r2 (2 * r1) h waste id) : Frame ℝ Other) = false) ∧
    ((FrameCd.new m r1 r2 w 0 waste id).h = 2 * r1 ∧
      (FrameCd.new m r1 r2 w (2 * r1) waste id).h = 2 * r1 ∧
      (FrameCd.new m r1 r2 w 0 waste id).isSimilarTo EPSILON
        (Frame.cd (FrameCd.new m r1 r2 w (2 * r1) waste id) : Frame ℝ Other) = false) := by
  have habs : ¬ |(0 : ℝ) - 2 * r1| ≤ EPSILON := by
    rw [not_le, zero_sub, abs_neg]
    exact lt_of_lt_of_le hE (le_abs_self _)
  have hw0 : (FrameCd.new m r1 r2 0 h waste id).w = 2 * r1 := by
    show (if (0 : ℝ) = 0 then 2 * r1 else 0) = 2 * r1
    simp
  have hw1 : (FrameCd.new m r1 r2 (2 * r1) h waste id).w = 2 * r1 := by
    show (if 2 * r1 = 0 then 2 * r1 else 2 * r1) = 2 * r1
    simp
  have hh0 : (FrameCd.new m r1 r2 w 0 waste id).h = 2 * r1 := by
    show (if (0 : ℝ) = 0 then 2 * r1 else 0) = 2 * r1
    simp
  have hh1 : (FrameCd.new m r1 r2 w (2 * r1) waste id).h = 2 * r1 := by
    show (if 2 * r1 = 0 then 2 * r1 else 2 * r1) = 2 * r1
    simp
  refine ⟨⟨hw0, hw1, ?_⟩, hh0, hh1, ?_⟩
  · rw [isSimilarTo_cd_eq_false_iff]
    intro hall
    exact habs hall.1
  · rw [isSimilarTo_cd_eq_false_iff]
    intro hall
    exact habs hall.2.1

/-- Instance of C20 at `EPSILON = 1/2`, `r1 = 60`: stored widths 0 and 120. -/
theorem isSimilarTo_compares_stored_footprint_witness :
    (1 / 2 : ℝ) < 2 * 60 ∧
    (FrameCd.new ⟨Real.arccos, Real.arcsin, Real.cos, Real.sin, Real.pi⟩ 60 7.5 0 0 0 "CD").w =
      2 * 60 ∧
    (FrameCd.new ⟨Real.arccos, Real.arcsin, Real.cos, Real.sin, Real.pi⟩ 60 7.5 (2 * 60) 0 0
      "CD").w = 2 * 60 ∧
    (FrameCd.new ⟨Real.arccos, Real.arcsin, Real.cos, Real.sin, Real.pi⟩ 60 7.5 0 0 0
        "CD").isSimilarTo (1 / 2)
      (Frame.cd (FrameCd.new ⟨Real.arccos, Real.arcsin, Real.cos, Real.sin, Real.pi⟩ 60 7.5
        (2 * 60) 0 0 "CD") : Frame ℝ Unit) = false :=
  ⟨by norm_num,
   (isSimilarTo_compares_stored_footprint _ (1 / 2) 60 7.5 0 0 0 "CD" (by norm_num)).1⟩

/-! ## Numerical values of the clip angles of the business-card CD -/

/-- Decimal bounds on the square roots of 2 and 3. -/
theorem sqrt_two_three_bounds :
    (1.4142 : ℝ) < Real.sqrt 2 ∧ Real.sqrt 2 < 1.41422 ∧
    (1.732 : ℝ) < Real.sqrt 3 ∧ Real.sqrt 3 < 1.73206 := by
  refine ⟨?_, ?_, ?_, ?_⟩
  · rw [Real.lt_sqrt (by norm_num)]; norm_num
  · rw [Real.sqrt_lt' (by norm_num)]; norm_num
  · rw [Real.lt_sqrt (by norm_num)]; norm_num
  · rw [Real.sqrt_lt' (by norm_num)]; norm_num

/-- Bounds on sine and cosine of a small positive angle. -/
theorem small_angle_bounds (x : ℝ) (h0 : 0 < x) (h1 : x ≤ 1) :
    x - x ^ 3 / 4 < Real.sin x ∧ Real.sin x < x ∧
    1 - x ^ 2 / 2 ≤ Real.cos x ∧ Real.cos x ≤ 1 - x ^ 2 / 2 + x ^ 4 * (5 / 96) := by
  refine ⟨Real.sin_gt_sub_cube h0 h1, Real.sin_lt h0, Real.one_sub_sq_div_two_le_cos, ?_⟩
  have hb := Real.cos_bound (x := x) (by rw [abs_of_pos h0]; exact h1)
  rw [abs_of_pos h0] at hb
  have := (abs_le.mp hb).2
  linarith

/-- The width angle of the business-card CD, `acos(85/120)` in degrees, is
about 44.9. -/
theorem business_card_theta1_bounds :
    (44.85 : ℝ) < Real.arccos (85 / (2 * 60)) * 180 / Real.pi ∧
    Real.arccos (85 / (2 * 60)) * 180 / Real.pi < 44.95 := by
  have hpi := Real.pi_pos
  have hpl := Real.pi_gt_d2
  have hpu := Real.pi_lt_d2
  obtain ⟨hs2l, hs2u, _, _⟩ := sqrt_two_three_bounds
  have hx : (85 : ℝ) / (2 * 60) = 17 / 24 := by norm_num
  have hadd : ∀ δ : ℝ, Real.sin (Real.pi / 4 + δ) =
      Real.sqrt 2 / 2 * (Real.cos δ + Real.sin δ) := by
    intro δ
    rw [Real.sin_add, Real.sin_pi_div_four, Real.cos_pi_div_four]
    ring
  -- the angle `asin(17/24)` lies between 45.05 and 45.15 degrees
  have hlo : Real.pi / 4 + 0.05 * Real.pi / 180 < Real.arcsin (17 / 24) := by
    rw [Real.lt_arcsin_iff_sin_lt ⟨by linarith, by linarith⟩ ⟨by norm_num, by norm_num⟩, hadd]
    obtain ⟨_, hs, _, _⟩ := small_angle_bounds (0.05 * Real.pi / 180) (by positivity)
      (by linarith)
    have hc := Real.cos_le_one (0.05 * Real.pi / 180)
    have hsum : Real.cos (0.05 * Real.pi / 180) + Real.sin (0.05 * Real.pi / 180) < 1.000875 := by
      linarith
    have hsum0 : 0 < Real.cos (0.05 * Real.pi / 180) + Real.sin (0.05 * Real.pi / 180) := by
      have := Real.cos_pos_of_mem_Ioo (x := 0.05 * Real.pi / 180) ⟨by linarith, by linarith⟩
      have := Real.sin_pos_of_pos_of_lt_pi (x := 0.05 * Real.pi / 180) (by positivity)
        (by linarith)
      linarith
    calc Real.sqrt 2 / 2 * (Real.cos (0.05 * Real.pi / 180) + Real.sin (0.05 * Real.pi / 180))
        < 1.41422 / 2 * 1.000875 := by
          apply mul_lt_mul'' (by linarith) hsum (by positivity) hsum0.le
      _ < 17 / 24 := by norm_num
  have hup : Real.arcsin (17 / 24) < Real.pi / 4 + 0.15 * Real.pi / 180 := by
    rw [Real.arcsin_lt_iff_lt_sin ⟨by norm_num, by norm_num⟩ ⟨by linarith, by linarith⟩, hadd]
    obtain ⟨hs, _, hc, _⟩ := small_angle_bounds (0.15 * Real.pi / 180) (by positivity)
      (by linarith)
    have hd1 : (0.0026166 : ℝ) < 0.15 * Real.pi / 180 := by linarith
    have hd2 : 0.15 * Real.pi / 180 < (0.002625 : ℝ) := by linarith
    have hsq : (0.15 * Real.pi / 180) ^ 2 < 0.002625 ^ 2 := by
      apply pow_lt_pow_left₀ hd2 (by positivity) (by norm_num)
    have hcu : (0.15 * Real.pi / 180) ^ 3 < 0.002625 ^ 3 := by
      apply pow_lt_pow_left₀ hd2 (by positivity) (by norm_num)
    have hsum : (1.0026 : ℝ) < Real.cos (0.15 * Real.pi / 180) + Real.sin (0.15 * Real.pi / 180) := by
      norm_num at hsq hcu ⊢
      linarith
    calc (17 : ℝ) / 24 < 1.4142 / 2 * 1.0026 := by norm_num
      _ < Real.sqrt 2 / 2 * (Real.cos (0.15 * Real.pi / 180) + Real.sin (0.15 * Real.pi / 180)) := by
          apply mul_lt_mul'' (by linarith) hsum (by norm_num) (by norm_num)
  rw [hx, Real.arccos_eq_pi_div_two_sub_arcsin]
  constructor
  · rw [lt_div_iff₀ hpi]; linarith
  · rw [div_lt_iff₀ hpi]; linarith

/-- The sine of an angle a little below 30 degrees. -/
theorem sin_pi_div_six_sub (ε : ℝ) :
    Real.sin (Real.pi / 6 - ε) = 1 / 2 * Real.cos ε - Real.sqrt 3 / 2 * Real.sin ε := by
  rw [Real.sin_sub, Real.sin_pi_div_six, Real.cos_pi_div_six]

/-- The sine of 26.7 degrees is below 0.45. -/
theorem sin_26_7_lt : Real.sin (Real.pi / 6 - 3.3 * Real.pi / 180) < 9 / 20 := by
  have hpi := Real.pi_pos
  have hpl := Real.pi_gt_d2
  have hpu := Real.pi_lt_d2
  obtain ⟨_, _, hs3l, hs3u⟩ := sqrt_two_three_bounds
  rw [sin_pi_div_six_sub]
  obtain ⟨hs, _, _, hc⟩ := small_angle_bounds (3.3 * Real.pi / 180) (by positivity)
    (by linarith)
  have hd1 : (0.05756 : ℝ) < 3.3 * Real.pi / 180 := by linarith
  have hd2 : 3.3 * Real.pi / 180 < (0.05775 : ℝ) := by linarith
  have hsq : (0.05756 : ℝ) ^ 2 < (3.3 * Real.pi / 180) ^ 2 :=
    pow_lt_pow_left₀ hd1 (by norm_num) (by norm_num)
  have hcu : (3.3 * Real.pi / 180) ^ 3 < 0.05775 ^ 3 :=
    pow_lt_pow_left₀ hd2 (by positivity) (by norm_num)
  have hqu : (3.3 * Real.pi / 180) ^ 4 < 0.05775 ^ 4 :=
    pow_lt_pow_left₀ hd2 (by positivity) (by norm_num)
  have e2 : (0.0033 : ℝ) < 0.05756 ^ 2 := by norm_num
  have e3 : (0.05775 : ℝ) ^ 3 < 0.0002 := by norm_num
  have e4 : (0.05775 : ℝ) ^ 4 < 0.00002 := by norm_num
  have hcos : Real.cos (3.3 * Real.pi / 180) < 0.99836 := by linarith
  have hsin : (0.0575 : ℝ) < Real.sin (3.3 * Real.pi / 180) := by linarith
  have hprod : (1.732 : ℝ) / 2 * 0.0575 <
      Real.sqrt 3 / 2 * Real.sin (3.3 * Real.pi / 180) :=
    mul_lt_mul'' (by linarith) hsin (by norm_num) (by norm_num)
  have e5 : (0.0497 : ℝ) < 1.732 / 2 * 0.0575 := by norm_num
  linarith

/-- The sine of 26.75 degrees is above 0.45. -/
theorem lt_sin_26_75 : 9 / 20 < Real.sin (Real.pi / 6 - 3.25 * Real.pi / 180) := by
  have hpi := Real.pi_pos
  have hpu := Real.pi_lt_d4
  obtain ⟨_, _, hs3l, hs3u⟩ := sqrt_two_three_bounds
  rw [sin_pi_div_six_sub]
  obtain ⟨_, hs, hc, _⟩ := small_angle_bounds (3.25 * Real.pi / 180) (by positivity)
    (by linarith)
  have hd2 : 3.25 * Real.pi / 180 < (0.056724 : ℝ) := by linarith
  have hsq : (3.25 * Real.pi / 180) ^ 2 < 0.056724 ^ 2 :=
    pow_lt_pow_left₀ hd2 (by positivity) (by norm_num)
  have e2 : (0.056724 : ℝ) ^ 2 < 0.0032177 := by norm_num
  have hsin0 : 0 < Real.sin (3.25 * Real.pi / 180) :=
    Real.sin_pos_of_pos_of_lt_pi (by positivity) (by linarith)
  have hprod : Real.sqrt 3 / 2 * Real.sin (3.25 * Real.pi / 180) < 1.73206 / 2 * 0.056724 :=
    mul_lt_mul'' (by linarith) (by linarith) (by positivity) hsin0.le
  have e5 : (1.73206 : ℝ) / 2 * 0.056724 < 0.049125 := by norm_num
  linarith

/-- The height angle of the business-card CD, `asin(54/120)` in degrees, is
about 26.7. -/
theorem business_card_theta2_bounds :
    (26.7 : ℝ) < Real.arcsin (54 / (2 * 60)) * 180 / Real.pi ∧
    Real.arcsin (54 / (2 * 60)) * 180 / Real.pi < 26.75 := by
  have hpi := Real.pi_pos
  have hpl := Real.pi_gt_d2
  have hpu := Real.pi_lt_d2
  have hx : (54 : ℝ) / (2 * 60) = 9 / 20 := by norm_num
  have hlo : Real.pi / 6 - 3.3 * Real.pi / 180 < Real.arcsin (9 / 20) := by
    rw [Real.lt_arcsin_iff_sin_lt ⟨by linarith, by linarith⟩ ⟨by norm_num, by norm_num⟩]
    exact sin_26_7_lt
  have hup : Real.arcsin (9 / 20) < Real.pi / 6 - 3.25 * Real.pi / 180 := by
    rw [Real.arcsin_lt_iff_lt_sin ⟨by norm_num, by norm_num⟩ ⟨by linarith, by linarith⟩]
    exact lt_sin_26_75
  rw [hx]
  constructor
  · rw [lt_div_iff₀ hpi]; linarith
  · rw [div_lt_iff₀ hpi]; linarith

/-! ## The sign of the sweep -/

/-- The outer contour of a path that starts with the four arcs of the frame
code, piece by piece. -/
theorem fourArcs_contour_eq (m : CMath ℝ) (x y d theta1 theta2 : ℝ)
    (rest : List (PathElement ℝ)) :
    QPainterPath.outerContour m
      ⟨[PathElement.arcMoveTo x y d d theta1,
        PathElement.arcTo x y d d theta1 (theta2 - theta1),
        PathElement.arcTo x y d d (180 - theta2) (theta2 - theta1),
        PathElement.arcTo x y d d (180 + theta1) (theta2 - theta1),
        PathElement.arcTo x y d d (360 - theta2) (theta2 - theta1),
        PathElement.closeSubpath] ++ rest⟩ =
      [Piece.line (arcPoint m x y d d theta1) (arcPoint m x y d d theta1),
       Piece.arc x y d d theta1 (theta2 - theta1),
       Piece.line (arcPoint m x y d d (theta1 + (theta2 - theta1)))
         (arcPoint m x y d d (180 - theta2)),
       Piece.arc x y d d (180 - theta2) (theta2 - theta1),
       Piece.line (arcPoint m x y d d (180 - theta2 + (theta2 - theta1)))
         (arcPoint m x y d d (180 + theta1)),
       Piece.arc x y d d (180 + theta1) (theta2 - theta1),
       Piece.line (arcPoint m x y d d (180 + theta1 + (theta2 - theta1)))
         (arcPoint m x y d d (360 - theta2)),
       Piece.arc x y d d (360 - theta2) (theta2 - theta1),
       Piece.line (arcPoint m x y d d (360 - theta2 + (theta2 - theta1)))
         (arcPoint m x y d d theta1)] :=
  rfl

/-- The elements of the un-rotated outline, as the constructor builds them. -/
theorem path_false_elements (m : CMath ℝ) (r1 r2 w h waste : ℝ) (id : String) :
    (FrameCd.new m r1 r2 w h waste id).path false =
      ⟨[PathElement.arcMoveTo (0 + (w / 2 - r1)) (0 + (h / 2 - r1)) (2 * r1) (2 * r1)
          (m.acos (w / (2 * r1)) * 180 / m.M_PI),
        PathElement.arcTo (0 + (w / 2 - r1)) (0 + (h / 2 - r1)) (2 * r1) (2 * r1)
          (m.acos (w / (2 * r1)) * 180 / m.M_PI)
          (m.asin (h / (2 * r1)) * 180 / m.M_PI - m.acos (w / (2 * r1)) * 180 / m.M_PI),
        PathElement.arcTo (0 + (w / 2 - r1)) (0 + (h / 2 - r1)) (2 * r1) (2 * r1)
          (180 - m.asin (h / (2 * r1)) * 180 / m.M_PI)
          (m.asin (h / (2 * r1)) * 180 / m.M_PI - m.acos (w / (2 * r1)) * 180 / m.M_PI),
        PathElement.arcTo (0 + (w / 2 - r1)) (0 + (h / 2 - r1)) (2 * r1) (2 * r1)
          (180 + m.acos (w / (2 * r1)) * 180 / m.M_PI)
          (m.asin (h / (2 * r1)) * 180 / m.M_PI - m.acos (w / (2 * r1)) * 180 / m.M_PI),
        PathElement.arcTo (0 + (w / 2 - r1)) (0 + (h / 2 - r1)) (2 * r1) (2 * r1)
          (360 - m.asin (h / (2 * r1)) * 180 / m.M_PI)
          (m.asin (h / (2 * r1)) * 180 / m.M_PI - m.acos (w / (2 * r1)) * 180 / m.M_PI),
        PathElement.closeSubpath] ++
        [PathElement.addEllipse (r1 - r2 + (w / 2 - r1)) (r1 - r2 + (h / 2 - r1)) (2 * r2)
          (2 * r2)]⟩ :=
  rfl

/-- In degrees as in radians: the height angle is below the width angle exactly
when the corners of the footprint are inside the disc. -/
theorem theta2_lt_theta1_iff (r1 w h : ℝ) (hr : 0 < r1) (hw : 0 < w) (hw2 : w ≤ 2 * r1)
    (hh : 0 < h) (hh2 : h ≤ 2 * r1) :
    Real.arcsin (h / (2 * r1)) * 180 / Real.pi < Real.arccos (w / (2 * r1)) * 180 / Real.pi ↔
      w ^ 2 + h ^ 2 < 4 * r1 ^ 2 := by
  have hpi := Real.pi_pos
  rw [← not_le, ← not_le, ← clip_angles_le_iff r1 w h hr hw hw2 hh hh2, not_iff_not,
    div_le_div_iff_of_pos_right hpi]
  constructor <;> intro hx <;> linarith

/-- Claim C17. For `r1 > 0`, `0 < w <= 2*r1`, `0 < h <= 2*r1` the constructor gives
each of the four arcs of `path(false)` the sweep `theta2 - theta1`, and
`theta2 < theta1` (a negative sweep) holds if and only if
`w^2 + h^2 < 4*r1^2`. For `R = 60`, `W = 85`, `H = 54` it computes
`theta1 = acos(85/120)`, between 44.85 and 44.95 degrees, and
`theta2 = asin(54/120)`, between 26.7 and 26.75 degrees, so `theta2 < theta1`;
the constructor has no rejecting path and yields the frame. -/
theorem sweep_negative_iff_corners_inside (r1 r2 w h waste : ℝ) (id : String)
    (hr : 0 < r1) (hw : 0 < w) (hw2 : w ≤ 2 * r1) (hh : 0 < h) (hh2 : h ≤ 2 * r1) :
    (∀ x y dw dh start sweep : ℝ,
      PathElement.arcTo x y dw dh start sweep ∈
        ((FrameCd.new ⟨Real.arccos, Real.arcsin, Real.cos, Real.sin, Real.pi⟩ r1 r2 w h waste
          id).path false).elements →
      sweep = Real.arcsin (h / (2 * r1)) * 180 / Real.pi -
        Real.arccos (w / (2 * r1)) * 180 / Real.pi) ∧
    (Real.arcsin (h / (2 * r1)) * 180 / Real.pi < Real.arccos (w / (2 * r1)) * 180 / Real.pi ↔
      w ^ 2 + h ^ 2 < 4 * r1 ^ 2) ∧
    (Real.arcsin (h / (2 * r1)) * 180 / Real.pi - Real.arccos (w / (2 * r1)) * 180 / Real.pi < 0 ↔
      w ^ 2 + h ^ 2 < 4 * r1 ^ 2) ∧
    ((44.85 : ℝ) < Real.arccos (85 / (2 * 60)) * 180 / Real.pi ∧
      Real.arccos (85 / (2 * 60)) * 180 / Real.pi < 44.95 ∧
      (26.7 : ℝ) < Real.arcsin (54 / (2 * 60)) * 180 / Real.pi ∧
      Real.arcsin (54 / (2 * 60)) * 180 / Real.pi < 26.75 ∧
      Real.arcsin (54 / (2 * 60)) * 180 / Real.pi < Real.arccos (85 / (2 * 60)) * 180 / Real.pi ∧
      ∃ f : FrameCd ℝ,
        FrameCd.new ⟨Real.arccos, Real.arcsin, Real.cos, Real.sin, Real.pi⟩ 60 7.5 85 54 0 "CD" =
          f ∧ (f.path false).elements.length = 7) := by
  have hiff := theta2_lt_theta1_iff r1 w h hr hw hw2 hh hh2
  obtain ⟨h1l, h1u⟩ := business_card_theta1_bounds
  obtain ⟨h2l, h2u⟩ := business_card_theta2_bounds
  refine ⟨?_, hiff, ?_, h1l, h1u, h2l, h2u, by linarith, _, rfl, rfl⟩
  · intro x y dw dh start sweep hmem
    rw [path_false_elements] at hmem
    simp only [List.cons_append, List.nil_append, List.mem_cons, List.mem_singleton,
      List.not_mem_nil, or_false, PathElement.arcTo.injEq, false_or, reduceCtorEq] at hmem
    rcases hmem with h | h | h | h <;> exact h.2.2.2.2.2
  · rw [sub_neg]
    exact hiff

/-- Instance of C17 at the business-card CD `R = 60`, `W = 85`, `H = 54`, where
`85^2 + 54^2 < 120^2`: the sweep of each arc is negative. -/
theorem sweep_negative_iff_corners_inside_witness :
    ((0 : ℝ) < 60 ∧ (0 : ℝ) < 85 ∧ (85 : ℝ) ≤ 2 * 60 ∧ (0 : ℝ) < 54 ∧ (54 : ℝ) ≤ 2 * 60 ∧
      (85 : ℝ) ^ 2 + 54 ^ 2 < 4 * 60 ^ 2) ∧
    Real.arcsin (54 / (2 * 60)) * 180 / Real.pi - Real.arccos (85 / (2 * 60)) * 180 / Real.pi < 0 ∧
    ∀ x y dw dh start sweep : ℝ,
      PathElement.arcTo x y dw dh start sweep ∈
        ((FrameCd.new ⟨Real.arccos, Real.arcsin, Real.cos, Real.sin, Real.pi⟩ 60 7.5 85 54 0
          "CD").path false).elements →
      sweep < 0 := by
  have key := sweep_negative_iff_corners_inside 60 7.5 85 54 0 "CD" (by norm_num) (by norm_num)
    (by norm_num) (by norm_num) (by norm_num)
  have hneg := key.2.2.1.mpr (by norm_num)
  refine ⟨⟨by norm_num, by norm_num, by norm_num, by norm_num, by norm_num, by norm_num⟩,
    hneg, fun x y dw dh start sweep hmem => ?_⟩
  rw [key.1 x y dw dh start sweep hmem]
  exact hneg

/-! ## Sound clipping when the corners are outside the disc -/

/-- Each of the four arcs is a piece of the outer contour. -/
theorem fourArcs_arc_mem (m : CMath ℝ) (x y d theta1 theta2 : ℝ)
    (rest : List (PathElement ℝ)) (start : ℝ)
    (hs : start = theta1 ∨ start = 180 - theta2 ∨ start = 180 + theta1 ∨
      start = 360 - theta2) :
    Piece.arc x y d d start (theta2 - theta1) ∈ QPainterPath.outerContour m
      ⟨[PathElement.arcMoveTo x y d d theta1,
        PathElement.arcTo x y d d theta1 (theta2 - theta1),
        PathElement.arcTo x y d d (180 - theta2) (theta2 - theta1),
        PathElement.arcTo x y d d (180 + theta1) (theta2 - theta1),
        PathElement.arcTo x y d d (360 - theta2) (theta2 - theta1),
        PathElement.closeSubpath] ++ rest⟩ := by
  rw [fourArcs_contour_eq]
  rcases hs with rfl | rfl | rfl | rfl <;> simp

/-- Claim C18. For every `FrameCd` with `r1 > 0`, `0 < w <= 2*r1`, `0 < h <= 2*r1` and
`w^2 + h^2 >= 4*r1^2`, the sweep `theta2 - theta1` is non-negative, and each of
the four outer arcs of `path(false)` (start angles `theta1`, `180 - theta2`,
`180 + theta1`, `360 - theta2`) is a piece of the outer contour all of whose
points (angles between the start and start + sweep), after translation,
satisfy `0 <= x <= w` and `0 <= y <= h`. -/
theorem arcs_within_footprint_of_corners_outside (r1 r2 w h waste : ℝ) (id : String)
    (hr : 0 < r1) (hw : 0 < w) (hw2 : w ≤ 2 * r1) (hh : 0 < h) (hh2 : h ≤ 2 * r1)
    (hcorner : 4 * r1 ^ 2 ≤ w ^ 2 + h ^ 2) :
    0 ≤ Real.arcsin (h / (2 * r1)) * 180 / Real.pi - Real.arccos (w / (2 * r1)) * 180 / Real.pi ∧
    ∀ start : ℝ,
      (start = Real.arccos (w / (2 * r1)) * 180 / Real.pi ∨
        start = 180 - Real.arcsin (h / (2 * r1)) * 180 / Real.pi ∨
        start = 180 + Real.arccos (w / (2 * r1)) * 180 / Real.pi ∨
        start = 360 - Real.arcsin (h / (2 * r1)) * 180 / Real.pi) →
      Piece.arc (0 + (w / 2 - r1)) (0 + (h / 2 - r1)) (2 * r1) (2 * r1) start
          (Real.arcsin (h / (2 * r1)) * 180 / Real.pi -
            Real.arccos (w / (2 * r1)) * 180 / Real.pi) ∈
        ((FrameCd.new ⟨Real.arccos, Real.arcsin, Real.cos, Real.sin, Real.pi⟩ r1 r2 w h waste
          id).path false).outerContour ⟨Real.arccos, Real.arcsin, Real.cos, Real.sin, Real.pi⟩ ∧
      ∀ pt : ℝ × ℝ,
        Piece.Contains ⟨Real.arccos, Real.arcsin, Real.cos, Real.sin, Real.pi⟩
          (Piece.arc (0 + (w / 2 - r1)) (0 + (h / 2 - r1)) (2 * r1) (2 * r1) start
            (Real.arcsin (h / (2 * r1)) * 180 / Real.pi -
              Real.arccos (w / (2 * r1)) * 180 / Real.pi)) pt →
        0 ≤ pt.1 ∧ pt.1 ≤ w ∧ 0 ≤ pt.2 ∧ pt.2 ≤ h := by
  have hpi := Real.pi_pos
  have hle := (clip_angles_le_iff r1 w h hr hw hw2 hh hh2).mpr hcorner
  refine ⟨?_, fun start hs => ⟨?_, ?_⟩⟩
  · rw [sub_nonneg, div_le_div_iff_of_pos_right hpi]
    linarith
  · rw [path_false_elements]
    exact fourArcs_arc_mem _ _ _ _ _ _ _ start hs
  · rintro pt ⟨t, ht0, ht1, hpt⟩
    exact arcs_in_footprint r1 w h hr hw hw2 hh hh2 hle t ht0 ht1 start hs pt hpt

/-- Instance of C18 at `R = 60`, `W = 100`, `H = 80`, where `100^2 + 80^2 >= 120^2`. -/
theorem arcs_within_footprint_of_corners_outside_witness :
    ((0 : ℝ) < 60 ∧ (0 : ℝ) < 100 ∧ (100 : ℝ) ≤ 2 * 60 ∧ (0 : ℝ) < 80 ∧ (80 : ℝ) ≤ 2 * 60 ∧
      (4 : ℝ) * 60 ^ 2 ≤ 100 ^ 2 + 80 ^ 2) ∧
    0 ≤ Real.arcsin (80 / (2 * 60)) * 180 / Real.pi -
      Real.arccos (100 / (2 * 60)) * 180 / Real.pi ∧
    ∀ pt : ℝ × ℝ,
      Piece.Contains ⟨Real.arccos, Real.arcsin, Real.cos, Real.sin, Real.pi⟩
        (Piece.arc (0 + (100 / 2 - 60)) (0 + (80 / 2 - 60)) (2 * 60) (2 * 60)
          (Real.arccos (100 / (2 * 60)) * 180 / Real.pi)
          (Real.arcsin (80 / (2 * 60)) * 180 / Real.pi -
            Real.arccos (100 / (2 * 60)) * 180 / Real.pi)) pt →
      0 ≤ pt.1 ∧ pt.1 ≤ 100 ∧ 0 ≤ pt.2 ∧ pt.2 ≤ 80 := by
  have key := arcs_within_footprint_of_corners_outside 60 7.5 100 80 0 "CD" (by norm_num)
    (by norm_num) (by norm_num) (by norm_num) (by norm_num) (by norm_num)
  exact ⟨⟨by norm_num, by norm_num, by norm_num, by norm_num, by norm_num, by norm_num⟩,
    key.1, (key.2 _ (Or.inl rfl)).2⟩

/-! ## Where the arcs end -/

/-- The ends of the four arcs of a circle of radius `R` drawn in the rectangle
`(X, Y, 2R, 2R)` and clipped to the width `W` and the height `H`: they lie
on the four lines at distance `W/2` and `H/2` from the centre. -/
theorem clip_edge_points (X Y R W H : ℝ) (hR : 0 < R) (hW : 0 < W) (hW2 : W ≤ 2 * R)
    (hH : 0 < H) (hH2 : H ≤ 2 * R) :
    (arcPoint ⟨Real.arccos, Real.arcsin, Real.cos, Real.sin, Real.pi⟩ X Y (2 * R) (2 * R)
      (Real.arccos (W / (2 * R)) * 180 / Real.pi +
        (Real.arcsin (H / (2 * R)) * 180 / Real.pi -
          Real.arccos (W / (2 * R)) * 180 / Real.pi))).2 = Y + R - H / 2 ∧
    (arcPoint ⟨Real.arccos, Real.arcsin, Real.cos, Real.sin, Real.pi⟩ X Y (2 * R) (2 * R)
      (180 - Real.arcsin (H / (2 * R)) * 180 / Real.pi)).2 = Y + R - H / 2 ∧
    (arcPoint ⟨Real.arccos, Real.arcsin, Real.cos, Real.sin, Real.pi⟩ X Y (2 * R) (2 * R)
      (180 - Real.arcsin (H / (2 * R)) * 180 / Real.pi +
        (Real.arcsin (H / (2 * R)) * 180 / Real.pi -
          Real.arccos (W / (2 * R)) * 180 / Real.pi))).1 = X + R - W / 2 ∧
    (arcPoint ⟨Real.arccos, Real.arcsin, Real.cos, Real.sin, Real.pi⟩ X Y (2 * R) (2 * R)
      (180 + Real.arccos (W / (2 * R)) * 180 / Real.pi)).1 = X + R - W / 2 ∧
    (arcPoint ⟨Real.arccos, Real.arcsin, Real.cos, Real.sin, Real.pi⟩ X Y (2 * R) (2 * R)
      (180 + Real.arccos (W / (2 * R)) * 180 / Real.pi +
        (Real.arcsin (H / (2 * R)) * 180 / Real.pi -
          Real.arccos (W / (2 * R)) * 180 / Real.pi))).2 = Y + R + H / 2 ∧
    (arcPoint ⟨Real.arccos, Real.arcsin, Real.cos, Real.sin, Real.pi⟩ X Y (2 * R) (2 * R)
      (360 - Real.arcsin (H / (2 * R)) * 180 / Real.pi)).2 = Y + R + H / 2 ∧
    (arcPoint ⟨Real.arccos, Real.arcsin, Real.cos, Real.sin, Real.pi⟩ X Y (2 * R) (2 * R)
      (360 - Real.arcsin (H / (2 * R)) * 180 / Real.pi +
        (Real.arcsin (H / (2 * R)) * 180 / Real.pi -
          Real.arccos (W / (2 * R)) * 180 / Real.pi))).1 = X + R + W / 2 ∧
    (arcPoint ⟨Real.arccos, Real.arcsin, Real.cos, Real.sin, Real.pi⟩ X Y (2 * R) (2 * R)
      (Real.arccos (W / (2 * R)) * 180 / Real.pi)).1 = X + R + W / 2 := by
  obtain ⟨hu0, hu1⟩ := clip_ratio_mem R W hR hW hW2
  obtain ⟨hv0, hv1⟩ := clip_ratio_mem R H hR hH hH2
  have hpi := Real.pi_ne_zero
  have hR0 : R ≠ 0 := hR.ne'
  have hc : Real.cos (Real.arccos (W / (2 * R))) = W / (2 * R) :=
    Real.cos_arccos (by linarith) hu1
  have hs : Real.sin (Real.arcsin (H / (2 * R))) = H / (2 * R) :=
    Real.sin_arcsin (by linarith) hv1
  set a1 := Real.arccos (W / (2 * R)) with ha1
  set a2 := Real.arcsin (H / (2 * R)) with ha2
  have e1 : (a1 * 180 / Real.pi + (a2 * 180 / Real.pi - a1 * 180 / Real.pi)) * Real.pi / 180 =
      a2 := by field_simp
  have e2 : (180 - a2 * 180 / Real.pi) * Real.pi / 180 = Real.pi - a2 := by field_simp; ring
  have e3 : (180 - a2 * 180 / Real.pi + (a2 * 180 / Real.pi - a1 * 180 / Real.pi)) * Real.pi /
      180 = Real.pi - a1 := by field_simp; ring
  have e4 : (180 + a1 * 180 / Real.pi) * Real.pi / 180 = a1 + Real.pi := by field_simp; ring
  have e5 : (180 + a1 * 180 / Real.pi + (a2 * 180 / Real.pi - a1 * 180 / Real.pi)) * Real.pi /
      180 = a2 + Real.pi := by field_simp; ring
  have e6 : (360 - a2 * 180 / Real.pi) * Real.pi / 180 = 2 * Real.pi - a2 := by
    field_simp; ring
  have e7 : (360 - a2 * 180 / Real.pi + (a2 * 180 / Real.pi - a1 * 180 / Real.pi)) * Real.pi /
      180 = 2 * Real.pi - a1 := by field_simp; ring
  have e8 : a1 * 180 / Real.pi * Real.pi / 180 = a1 := by field_simp
  have ew : 2 * R / 2 * (W / (2 * R)) = W / 2 := by field_simp; ring
  have eh : 2 * R / 2 * (H / (2 * R)) = H / 2 := by field_simp; ring
  simp only [arcPoint_real]
  rw [e1, e2, e3, e4, e5, e6, e7, e8, Real.sin_pi_sub, Real.cos_pi_sub, Real.cos_add_pi,
    Real.sin_add_pi, Real.sin_two_pi_sub, Real.cos_two_pi_sub, hc, hs]
  refine ⟨?_, ?_, ?_, ?_, ?_, ?_, ?_, ?_⟩ <;> simp only [mul_neg, ew, eh] <;> ring

/-- A point of a segment has the first coordinate that its two ends share, and
the second coordinate that they share. -/
theorem segment_on_line (m : CMath ℝ) (p q pt : ℝ × ℝ)
    (hpt : Piece.Contains m (Piece.line p q) pt) :
    (∀ c : ℝ, p.1 = c → q.1 = c → pt.1 = c) ∧ (∀ c : ℝ, p.2 = c → q.2 = c → pt.2 = c) := by
  obtain ⟨t, _, _, rfl⟩ := hpt
  constructor
  · intro c hp hq
    simp only [hp, hq, sub_self, mul_zero, add_zero]
  · intro c hp hq
    simp only [hp, hq, sub_self, mul_zero, add_zero]

/-- The straight pieces of the outer contour of a path that starts with the
four arcs of the frame code: the start of the first arc joined to itself, and
the end of each arc joined to the start of the next one. -/
theorem fourArcs_line_cases (m : CMath ℝ) (x y d theta1 theta2 : ℝ)
    (rest : List (PathElement ℝ)) (p q : ℝ × ℝ)
    (hmem : Piece.line p q ∈ QPainterPath.outerContour m
      ⟨[PathElement.arcMoveTo x y d d theta1,
        PathElement.arcTo x y d d theta1 (theta2 - theta1),
        PathElement.arcTo x y d d (180 - theta2) (theta2 - theta1),
        PathElement.arcTo x y d d (180 + theta1) (theta2 - theta1),
        PathElement.arcTo x y d d (360 - theta2) (theta2 - theta1),
        PathElement.closeSubpath] ++ rest⟩) :
    (p = arcPoint m x y d d theta1 ∧ q = arcPoint m x y d d theta1) ∨
    (p = arcPoint m x y d d (theta1 + (theta2 - theta1)) ∧
      q = arcPoint m x y d d (180 - theta2)) ∨
    (p = arcPoint m x y d d (180 - theta2 + (theta2 - theta1)) ∧
      q = arcPoint m x y d d (180 + theta1)) ∨
    (p = arcPoint m x y d d (180 + theta1 + (theta2 - theta1)) ∧
      q = arcPoint m x y d d (360 - theta2)) ∨
    (p = arcPoint m x y d d (360 - theta2 + (theta2 - theta1)) ∧
      q = arcPoint m x y d d theta1) := by
  rw [fourArcs_contour_eq] at hmem
  simp only [List.mem_cons, List.mem_singleton, List.not_mem_nil, or_false, Piece.line.injEq,
    reduceCtorEq, false_or] at hmem
  rcases hmem with h | h | h | h | h
  · exact Or.inl h
  · exact Or.inr (Or.inl h)
  · exact Or.inr (Or.inr (Or.inl h))
  · exact Or.inr (Or.inr (Or.inr (Or.inl h)))
  · exact Or.inr (Or.inr (Or.inr (Or.inr h)))

/-- The straight pieces of the clipped circle of radius `R` drawn in the
rectangle `(X, Y, 2R, 2R)`: each lies on one of the four lines at distance
`W/2` and `H/2` from the centre `(X + R, Y + R)`. -/
theorem clip_lines_on_edges (X Y R W H : ℝ) (hR : 0 < R) (hW : 0 < W) (hW2 : W ≤ 2 * R)
    (hH : 0 < H) (hH2 : H ≤ 2 * R) (rest : List (PathElement ℝ)) (p q : ℝ × ℝ)
    (hmem : Piece.line p q ∈
      QPainterPath.outerContour ⟨Real.arccos, Real.arcsin, Real.cos, Real.sin, Real.pi⟩
      ⟨[PathElement.arcMoveTo X Y (2 * R) (2 * R) (Real.arccos (W / (2 * R)) * 180 / Real.pi),
        PathElement.arcTo X Y (2 * R) (2 * R) (Real.arccos (W / (2 * R)) * 180 / Real.pi)
          (Real.arcsin (H / (2 * R)) * 180 / Real.pi - Real.arccos (W / (2 * R)) * 180 / Real.pi),
        PathElement.arcTo X Y (2 * R) (2 * R) (180 - Real.arcsin (H / (2 * R)) * 180 / Real.pi)
          (Real.arcsin (H / (2 * R)) * 180 / Real.pi - Real.arccos (W / (2 * R)) * 180 / Real.pi),
        PathElement.arcTo X Y (2 * R) (2 * R) (180 + Real.arccos (W / (2 * R)) * 180 / Real.pi)
          (Real.arcsin (H / (2 * R)) * 180 / Real.pi - Real.arccos (W / (2 * R)) * 180 / Real.pi),
        PathElement.arcTo X Y (2 * R) (2 * R) (360 - Real.arcsin (H / (2 * R)) * 180 / Real.pi)
          (Real.arcsin (H / (2 * R)) * 180 / Real.pi - Real.arccos (W / (2 * R)) * 180 / Real.pi),
        PathElement.closeSubpath] ++ rest⟩)
    (pt : ℝ × ℝ)
    (hpt : Piece.Contains ⟨Real.arccos, Real.arcsin, Real.cos, Real.sin, Real.pi⟩
      (Piece.line p q) pt) :
    (p.2 = Y + R - H / 2 ∧ q.2 = Y + R - H / 2 ∧ pt.2 = Y + R - H / 2) ∨
    (p.1 = X + R - W / 2 ∧ q.1 = X + R - W / 2 ∧ pt.1 = X + R - W / 2) ∨
    (p.2 = Y + R + H / 2 ∧ q.2 = Y + R + H / 2 ∧ pt.2 = Y + R + H / 2) ∨
    (p.1 = X + R + W / 2 ∧ q.1 = X + R + W / 2 ∧ pt.1 = X + R + W / 2) := by
  obtain ⟨k1, k2, k3, k4, k5, k6, k7, k8⟩ := clip_edge_points X Y R W H hR hW hW2 hH hH2
  obtain ⟨hx, hy⟩ := segment_on_line _ p q pt hpt
  rcases fourArcs_line_cases _ _ _ _ _ _ _ p q hmem with
    ⟨hp, hq⟩ | ⟨hp, hq⟩ | ⟨hp, hq⟩ | ⟨hp, hq⟩ | ⟨hp, hq⟩
  · have hp1 : p.1 = X + R + W / 2 := by rw [hp]; exact k8
    have hq1 : q.1 = X + R + W / 2 := by rw [hq]; exact k8
    exact Or.inr (Or.inr (Or.inr ⟨hp1, hq1, hx _ hp1 hq1⟩))
  · have hp1 : p.2 = Y + R - H / 2 := by rw [hp]; exact k1
    have hq1 : q.2 = Y + R - H / 2 := by rw [hq]; exact k2
    exact Or.inl ⟨hp1, hq1, hy _ hp1 hq1⟩
  · have hp1 : p.1 = X + R - W / 2 := by rw [hp]; exact k3
    have hq1 : q.1 = X + R - W / 2 := by rw [hq]; exact k4
    exact Or.inr (Or.inl ⟨hp1, hq1, hx _ hp1 hq1⟩)
  · have hp1 : p.2 = Y + R + H / 2 := by rw [hp]; exact k5
    have hq1 : q.2 = Y + R + H / 2 := by rw [hq]; exact k6
    exact Or.inr (Or.inr (Or.inl ⟨hp1, hq1, hy _ hp1 hq1⟩))
  · have hp1 : p.1 = X + R + W / 2 := by rw [hp]; exact k7
    have hq1 : q.1 = X + R + W / 2 := by rw [hq]; exact k8
    exact Or.inr (Or.inr (Or.inr ⟨hp1, hq1, hx _ hp1 hq1⟩))

/-- Claim C15. For every `FrameCd` with `r1 > 0`, `0 < w <= 2*r1`, `0 < h <= 2*r1` the
outer contour of `path(false)` is: arc 1, a segment, arc 2, a segment, arc 3, a
segment, arc 4 and the closing segment (after a first segment of length zero
at the start of arc 1). After the translation the end of arc 1 and the start
of arc 2 have `y = 0`, the end of arc 2 and the start of arc 3 have `x = 0`,
the end of arc 3 and the start of arc 4 have `y = h`, the end of arc 4 and the
start of arc 1 have `x = w`; and every straight piece of the contour lies, with
both its ends and all its points, on one of the lines `y = 0`, `x = 0`,
`y = h`, `x = w`. -/
theorem contour_truncated_on_footprint_edges (r1 r2 w h waste : ℝ) (id : String)
    (hr : 0 < r1) (hw : 0 < w) (hw2 : w ≤ 2 * r1) (hh : 0 < h) (hh2 : h ≤ 2 * r1) :
    ((FrameCd.new ⟨Real.arccos, Real.arcsin, Real.cos, Real.sin, Real.pi⟩ r1 r2 w h waste
        id).path false).outerContour ⟨Real.arccos, Real.arcsin, Real.cos, Real.sin, Real.pi⟩ =
      [Piece.line
         (arcPoint ⟨Real.arccos, Real.arcsin, Real.cos, Real.sin, Real.pi⟩ (0 + (w / 2 - r1))
           (0 + (h / 2 - r1)) (2 * r1) (2 * r1) (Real.arccos (w / (2 * r1)) * 180 / Real.pi))
         (arcPoint ⟨Real.arccos, Real.arcsin, Real.cos, Real.sin, Real.pi⟩ (0 + (w / 2 - r1))
           (0 + (h / 2 - r1)) (2 * r1) (2 * r1) (Real.arccos (w / (2 * r1)) * 180 / Real.pi)),
       Piece.arc (0 + (w / 2 - r1)) (0 + (h / 2 - r1)) (2 * r1) (2 * r1)
         (Real.arccos (w / (2 * r1)) * 180 / Real.pi)
         (Real.arcsin (h / (2 * r1)) * 180 / Real.pi - Real.arccos (w / (2 * r1)) * 180 / Real.pi),
       Piece.line
         (arcPoint ⟨Real.arccos, Real.arcsin, Real.cos, Real.sin, Real.pi⟩ (0 + (w / 2 - r1))
           (0 + (h / 2 - r1)) (2 * r1) (2 * r1)
           (Real.arccos (w / (2 * r1)) * 180 / Real.pi +
             (Real.arcsin (h / (2 * r1)) * 180 / Real.pi -
               Real.arccos (w / (2 * r1)) * 180 / Real.pi)))
         (arcPoint ⟨Real.arccos, Real.arcsin, Real.cos, Real.sin, Real.pi⟩ (0 + (w / 2 - r1))
           (0 + (h / 2 - r1)) (2 * r1) (2 * r1)
           (180 - Real.arcsin (h / (2 * r1)) * 180 / Real.pi)),
       Piece.arc (0 + (w / 2 - r1)) (0 + (h / 2 - r1)) (2 * r1) (2 * r1)
         (180 - Real.arcsin (h / (2 * r1)) * 180 / Real.pi)
         (Real.arcsin (h / (2 * r1)) * 180 / Real.pi - Real.arccos (w / (2 * r1)) * 180 / Real.pi),
       Piece.line
         (arcPoint ⟨Real.arccos, Real.arcsin, Real.cos, Real.sin, Real.pi⟩ (0 + (w / 2 - r1))
           (0 + (h / 2 - r1)) (2 * r1) (2 * r1)
           (180 - Real.arcsin (h / (2 * r1)) * 180 / Real.pi +
             (Real.arcsin (h / (2 * r1)) * 180 / Real.pi -
               Real.arccos (w / (2 * r1)) * 180 / Real.pi)))
         (arcPoint ⟨Real.arccos, Real.arcsin, Real.cos, Real.sin, Real.pi⟩ (0 + (w / 2 - r1))
           (0 + (h / 2 - r1)) (2 * r1) (2 * r1)
           (180 + Real.arccos (w / (2 * r1)) * 180 / Real.pi)),
       Piece.arc (0 + (w / 2 - r1)) (0 + (h / 2 - r1)) (2 * r1) (2 * r1)
         (180 + Real.arccos (w / (2 * r1)) * 180 / Real.pi)
         (Real.arcsin (h / (2 * r1)) * 180 / Real.pi - Real.arccos (w / (2 * r1)) * 180 / Real.pi),
       Piece.line
         (arcPoint ⟨Real.arccos, Real.arcsin, Real.cos, Real.sin, Real.pi⟩ (0 + (w / 2 - r1))
           (0 + (h / 2 - r1)) (2 * r1) (2 * r1)
           (180 + Real.arccos (w / (2 * r1)) * 180 / Real.pi +
             (Real.arcsin (h / (2 * r1)) * 180 / Real.pi -
               Real.arccos (w / (2 * r1)) * 180 / Real.pi)))
         (arcPoint ⟨Real.arccos, Real.arcsin, Real.cos, Real.sin, Real.pi⟩ (0 + (w / 2 - r1))
           (0 + (h / 2 - r1)) (2 * r1) (2 * r1)
           (360 - Real.arcsin (h / (2 * r1)) * 180 / Real.pi)),
       Piece.arc (0 + (w / 2 - r1)) (0 + (h / 2 - r1)) (2 * r1) (2 * r1)
         (360 - Real.arcsin (h / (2 * r1)) * 180 / Real.pi)
         (Real.arcsin (h / (2 * r1)) * 180 / Real.pi - Real.arccos (w / (2 * r1)) * 180 / Real.pi),
       Piece.line
         (arcPoint ⟨Real.arccos, Real.arcsin, Real.cos, Real.sin, Real.pi⟩ (0 + (w / 2 - r1))
           (0 + (h / 2 - r1)) (2 * r1) (2 * r1)
           (360 - Real.arcsin (h / (2 * r1)) * 180 / Real.pi +
             (Real.arcsin (h / (2 * r1)) * 180 / Real.pi -
               Real.arccos (w / (2 * r1)) * 180 / Real.pi)))
         (arcPoint ⟨Real.arccos, Real.arcsin, Real.cos, Real.sin, Real.pi⟩ (0 + (w / 2 - r1))
           (0 + (h / 2 - r1)) (2 * r1) (2 * r1)
           (Real.arccos (w / (2 * r1)) * 180 / Real.pi))] ∧
    ((arcPoint ⟨Real.arccos, Real.arcsin, Real.cos, Real.sin, Real.pi⟩ (0 + (w / 2 - r1))
        (0 + (h / 2 - r1)) (2 * r1) (2 * r1)
        (Real.arccos (w / (2 * r1)) * 180 / Real.pi +
          (Real.arcsin (h / (2 * r1)) * 180 / Real.pi -
            Real.arccos (w / (2 * r1)) * 180 / Real.pi))).2 = 0 ∧
      (arcPoint ⟨Real.arccos, Real.arcsin, Real.cos, Real.sin, Real.pi⟩ (0 + (w / 2 - r1))
        (0 + (h / 2 - r1)) (2 * r1) (2 * r1)
        (180 - Real.arcsin (h / (2 * r1)) * 180 / Real.pi)).2 = 0) ∧
    ((arcPoint ⟨Real.arccos, Real.arcsin, Real.cos, Real.sin, Real.pi⟩ (0 + (w / 2 - r1))
        (0 + (h / 2 - r1)) (2 * r1) (2 * r1)
        (180 - Real.arcsin (h / (2 * r1)) * 180 / Real.pi +
          (Real.arcsin (h / (2 * r1)) * 180 / Real.pi -
            Real.arccos (w / (2 * r1)) * 180 / Real.pi))).1 = 0 ∧
      (arcPoint ⟨Real.arccos, Real.arcsin, Real.cos, Real.sin, Real.pi⟩ (0 + (w / 2 - r1))
        (0 + (h / 2 - r1)) (2 * r1) (2 * r1)
        (180 + Real.arccos (w / (2 * r1)) * 180 / Real.pi)).1 = 0) ∧
    ((arcPoint ⟨Real.arccos, Real.arcsin, Real.cos, Real.sin, Real.pi⟩ (0 + (w / 2 - r1))
        (0 + (h / 2 - r1)) (2 * r1) (2 * r1)
        (180 + Real.arccos (w / (2 * r1)) * 180 / Real.pi +
          (Real.arcsin (h / (2 * r1)) * 180 / Real.pi -
            Real.arccos (w / (2 * r1)) * 180 / Real.pi))).2 = h ∧
      (arcPoint ⟨Real.arccos, Real.arcsin, Real.cos, Real.sin, Real.pi⟩ (0 + (w / 2 - r1))
        (0 + (h / 2 - r1)) (2 * r1) (2 * r1)
        (360 - Real.arcsin (h / (2 * r1)) * 180 / Real.pi)).2 = h) ∧
    ((arcPoint ⟨Real.arccos, Real.arcsin, Real.cos, Real.sin, Real.pi⟩ (0 + (w / 2 - r1))
        (0 + (h / 2 - r1)) (2 * r1) (2 * r1)
        (360 - Real.arcsin (h / (2 * r1)) * 180 / Real.pi +
          (Real.arcsin (h / (2 * r1)) * 180 / Real.pi -
            Real.arccos (w / (2 * r1)) * 180 / Real.pi))).1 = w ∧
      (arcPoint ⟨Real.arccos, Real.arcsin, Real.cos, Real.sin, Real.pi⟩ (0 + (w / 2 - r1))
        (0 + (h / 2 - r1)) (2 * r1) (2 * r1)
        (Real.arccos (w / (2 * r1)) * 180 / Real.pi)).1 = w) ∧
    ∀ p q : ℝ × ℝ,
      Piece.line p q ∈
        ((FrameCd.new ⟨Real.arccos, Real.arcsin, Real.cos, Real.sin, Real.pi⟩ r1 r2 w h waste
          id).path false).outerContour ⟨Real.arccos, Real.arcsin, Real.cos, Real.sin, Real.pi⟩ →
      ∀ pt : ℝ × ℝ,
        Piece.Contains ⟨Real.arccos, Real.arcsin, Real.cos, Real.sin, Real.pi⟩
          (Piece.line p q) pt →
        (p.2 = 0 ∧ q.2 = 0 ∧ pt.2 = 0) ∨ (p.1 = 0 ∧ q.1 = 0 ∧ pt.1 = 0) ∨
        (p.2 = h ∧ q.2 = h ∧ pt.2 = h) ∨ (p.1 = w ∧ q.1 = w ∧ pt.1 = w) := by
  obtain ⟨k1, k2, k3, k4, k5, k6, k7, k8⟩ :=
    clip_edge_points (0 + (w / 2 - r1)) (0 + (h / 2 - r1)) r1 w h hr hw hw2 hh hh2
  have ey0 : 0 + (h / 2 - r1) + r1 - h / 2 = 0 := by ring
  have ex0 : 0 + (w / 2 - r1) + r1 - w / 2 = 0 := by ring
  have ey1 : 0 + (h / 2 - r1) + r1 + h / 2 = h := by ring
  have ex1 : 0 + (w / 2 - r1) + r1 + w / 2 = w := by ring
  rw [ey0] at k1 k2
  rw [ex0] at k3 k4
  rw [ey1] at k5 k6
  rw [ex1] at k7 k8
  refine ⟨?_, ⟨k1, k2⟩, ⟨k3, k4⟩, ⟨k5, k6⟩, ⟨k7, k8⟩, ?_⟩
  · rw [path_false_elements]
    exact fourArcs_contour_eq _ _ _ _ _ _ _
  · intro p q hmem pt hpt
    rw [path_false_elements] at hmem
    have key := clip_lines_on_edges (0 + (w / 2 - r1)) (0 + (h / 2 - r1)) r1 w h hr hw hw2 hh
      hh2 _ p q hmem pt hpt
    rw [ey0, ex0, ey1, ex1] at key
    exact key

/-- Instance of C15 at the business-card CD `R = 60`, `W = 85`, `H = 54`: arc 1
ends, and arc 2 starts, on the line `y = 0`. -/
theorem contour_truncated_on_footprint_edges_witness :
    ((0 : ℝ) < 60 ∧ (0 : ℝ) < 85 ∧ (85 : ℝ) ≤ 2 * 60 ∧ (0 : ℝ) < 54 ∧ (54 : ℝ) ≤ 2 * 60) ∧
    (arcPoint ⟨Real.arccos, Real.arcsin, Real.cos, Real.sin, Real.pi⟩ (0 + (85 / 2 - 60))
        (0 + (54 / 2 - 60)) (2 * 60) (2 * 60)
        (Real.arccos (85 / (2 * 60)) * 180 / Real.pi +
          (Real.arcsin (54 / (2 * 60)) * 180 / Real.pi -
            Real.arccos (85 / (2 * 60)) * 180 / Real.pi))).2 = 0 ∧
    (arcPoint ⟨Real.arccos, Real.arcsin, Real.cos, Real.sin, Real.pi⟩ (0 + (85 / 2 - 60))
        (0 + (54 / 2 - 60)) (2 * 60) (2 * 60)
        (180 - Real.arcsin (54 / (2 * 60)) * 180 / Real.pi)).2 = 0 :=
  ⟨⟨by norm_num, by norm_num, by norm_num, by norm_num, by norm_num⟩,
    (contour_truncated_on_footprint_edges 60 7.5 85 54 0 "CD" (by norm_num) (by norm_num)
      (by norm_num) (by norm_num) (by norm_num)).2.1⟩

/-! ## The centre of the outline -/

/-- The elements of a path made of the four arcs of the frame code and a hole:
each is the closing element, an arc element on the outer square, or the
ellipse of the hole. -/
theorem fourArcs_element_cases (X Y D ex ey ed theta1 theta2 : ℝ) (e : PathElement ℝ)
    (hmem : e ∈ [PathElement.arcMoveTo X Y D D theta1,
        PathElement.arcTo X Y D D theta1 (theta2 - theta1),
        PathElement.arcTo X Y D D (180 - theta2) (theta2 - theta1),
        PathElement.arcTo X Y D D (180 + theta1) (theta2 - theta1),
        PathElement.arcTo X Y D D (360 - theta2) (theta2 - theta1),
        PathElement.closeSubpath] ++ [PathElement.addEllipse ex ey ed ed]) :
    e = PathElement.closeSubpath ∨ (∃ a : ℝ, e = PathElement.arcMoveTo X Y D D a) ∨
      (∃ a sw : ℝ, e = PathElement.arcTo X Y D D a sw) ∨ e = PathElement.addEllipse ex ey ed ed := by
  simp only [List.cons_append, List.nil_append, List.mem_cons, List.mem_singleton,
    List.not_mem_nil, or_false] at hmem
  rcases hmem with rfl | rfl | rfl | rfl | rfl | rfl | rfl
  · exact Or.inr (Or.inl ⟨_, rfl⟩)
  · exact Or.inr (Or.inr (Or.inl ⟨_, _, rfl⟩))
  · exact Or.inr (Or.inr (Or.inl ⟨_, _, rfl⟩))
  · exact Or.inr (Or.inr (Or.inl ⟨_, _, rfl⟩))
  · exact Or.inr (Or.inr (Or.inl ⟨_, _, rfl⟩))
  · exact Or.inl rfl
  · exact Or.inr (Or.inr (Or.inr rfl))

/-- A point of the circle inscribed in the square `(x, y, 2r, 2r)` is at distance
`r` from the centre of the square. -/
theorem circle_point_dist (x y r cx cy t : ℝ) (hx : x + r = cx) (hy : y + r = cy) :
    ((arcPoint ⟨Real.arccos, Real.arcsin, Real.cos, Real.sin, Real.pi⟩ x y (2 * r) (2 * r)
        t).1 - cx) ^ 2 +
      ((arcPoint ⟨Real.arccos, Real.arcsin, Real.cos, Real.sin, Real.pi⟩ x y (2 * r) (2 * r)
        t).2 - cy) ^ 2 = r ^ 2 := by
  rw [arcPoint_real, ← hx, ← hy]
  simp only
  have hsc := Real.sin_sq_add_cos_sq (t * Real.pi / 180)
  linear_combination r ^ 2 * hsc

/-- The elements of a path made of the four arcs on the square `(X, Y, 2R, 2R)`
and the hole `(ex, ey, 2r, 2r)`, both centred at `(cx, cy)`: every arc element
lies on the circle of centre `(cx, cy)` and radius `R`, and the hole is the
circle of centre `(cx, cy)` and radius `r`. -/
theorem fourArcs_concentric (X Y R ex ey r cx cy theta1 theta2 : ℝ)
    (hX : X + R = cx) (hY : Y + R = cy) (hex : ex + r = cx) (hey : ey + r = cy)
    (e : PathElement ℝ)
    (hmem : e ∈ [PathElement.arcMoveTo X Y (2 * R) (2 * R) theta1,
        PathElement.arcTo X Y (2 * R) (2 * R) theta1 (theta2 - theta1),
        PathElement.arcTo X Y (2 * R) (2 * R) (180 - theta2) (theta2 - theta1),
        PathElement.arcTo X Y (2 * R) (2 * R) (180 + theta1) (theta2 - theta1),
        PathElement.arcTo X Y (2 * R) (2 * R) (360 - theta2) (theta2 - theta1),
        PathElement.closeSubpath] ++ [PathElement.addEllipse ex ey (2 * r) (2 * r)]) :
    e = PathElement.closeSubpath ∨
    (∃ x y a : ℝ, e = PathElement.arcMoveTo x y (2 * R) (2 * R) a ∧
      x + R = cx ∧ y + R = cy ∧
      ∀ t : ℝ,
        ((arcPoint ⟨Real.arccos, Real.arcsin, Real.cos, Real.sin, Real.pi⟩ x y (2 * R) (2 * R)
            t).1 - cx) ^ 2 +
          ((arcPoint ⟨Real.arccos, Real.arcsin, Real.cos, Real.sin, Real.pi⟩ x y (2 * R) (2 * R)
            t).2 - cy) ^ 2 = R ^ 2) ∨
    (∃ x y a sw : ℝ, e = PathElement.arcTo x y (2 * R) (2 * R) a sw ∧
      x + R = cx ∧ y + R = cy ∧
      ∀ t : ℝ,
        ((arcPoint ⟨Real.arccos, Real.arcsin, Real.cos, Real.sin, Real.pi⟩ x y (2 * R) (2 * R)
            t).1 - cx) ^ 2 +
          ((arcPoint ⟨Real.arccos, Real.arcsin, Real.cos, Real.sin, Real.pi⟩ x y (2 * R) (2 * R)
            t).2 - cy) ^ 2 = R ^ 2) ∨
    (∃ x y : ℝ, e = PathElement.addEllipse x y (2 * r) (2 * r) ∧
      x + r = cx ∧ y + r = cy ∧
      ∀ t : ℝ,
        ((arcPoint ⟨Real.arccos, Real.arcsin, Real.cos, Real.sin, Real.pi⟩ x y (2 * r) (2 * r)
            t).1 - cx) ^ 2 +
          ((arcPoint ⟨Real.arccos, Real.arcsin, Real.cos, Real.sin, Real.pi⟩ x y (2 * r) (2 * r)
            t).2 - cy) ^ 2 = r ^ 2) := by
  rcases fourArcs_element_cases X Y (2 * R) ex ey (2 * r) theta1 theta2 e hmem with
    h | ⟨a, h⟩ | ⟨a, sw, h⟩ | h
  · exact Or.inl h
  · exact Or.inr (Or.inl ⟨X, Y, a, h, hX, hY, fun t => circle_point_dist X Y R cx cy t hX hY⟩)
  · exact Or.inr (Or.inr (Or.inl
      ⟨X, Y, a, sw, h, hX, hY, fun t => circle_point_dist X Y R cx cy t hX hY⟩))
  · exact Or.inr (Or.inr (Or.inr
      ⟨ex, ey, h, hex, hey, fun t => circle_point_dist ex ey r cx cy t hex hey⟩))

/-- The elements of the margin path, as `createMarginGraphicsItem` builds them. -/
theorem margin_path_elements {QPen : Type} (m : CMath ℝ) (r1 r2 w h waste s : ℝ) (id : String)
    (pen : QPen) :
    ((FrameCd.new m r1 r2 w h waste id).createMarginGraphicsItem m s pen).path =
      ⟨[PathElement.arcMoveTo (0 + (w / 2 - (r1 - s))) (0 + (h / 2 - (r1 - s))) (2 * (r1 - s))
          (2 * (r1 - s)) (m.acos ((w - 2 * s) / (2 * (r1 - s))) * 180 / m.M_PI),
        PathElement.arcTo (0 + (w / 2 - (r1 - s))) (0 + (h / 2 - (r1 - s))) (2 * (r1 - s))
          (2 * (r1 - s)) (m.acos ((w - 2 * s) / (2 * (r1 - s))) * 180 / m.M_PI)
          (m.asin ((h - 2 * s) / (2 * (r1 - s))) * 180 / m.M_PI -
            m.acos ((w - 2 * s) / (2 * (r1 - s))) * 180 / m.M_PI),
        PathElement.arcTo (0 + (w / 2 - (r1 - s))) (0 + (h / 2 - (r1 - s))) (2 * (r1 - s))
          (2 * (r1 - s)) (180 - m.asin ((h - 2 * s) / (2 * (r1 - s))) * 180 / m.M_PI)
          (m.asin ((h - 2 * s) / (2 * (r1 - s))) * 180 / m.M_PI -
            m.acos ((w - 2 * s) / (2 * (r1 - s))) * 180 / m.M_PI),
        PathElement.arcTo (0 + (w / 2 - (r1 - s))) (0 + (h / 2 - (r1 - s))) (2 * (r1 - s))
          (2 * (r1 - s)) (180 + m.acos ((w - 2 * s) / (2 * (r1 - s))) * 180 / m.M_PI)
          (m.asin ((h - 2 * s) / (2 * (r1 - s))) * 180 / m.M_PI -
            m.acos ((w - 2 * s) / (2 * (r1 - s))) * 180 / m.M_PI),
        PathElement.arcTo (0 + (w / 2 - (r1 - s))) (0 + (h / 2 - (r1 - s))) (2 * (r1 - s))
          (2 * (r1 - s)) (360 - m.asin ((h - 2 * s) / (2 * (r1 - s))) * 180 / m.M_PI)
          (m.asin ((h - 2 * s) / (2 * (r1 - s))) * 180 / m.M_PI -
            m.acos ((w - 2 * s) / (2 * (r1 - s))) * 180 / m.M_PI),
        PathElement.closeSubpath] ++
        [PathElement.addEllipse (r1 - s - (r2 + s) + (w / 2 - (r1 - s)))
          (r1 - s - (r2 + s) + (h / 2 - (r1 - s))) (2 * (r2 + s)) (2 * (r2 + s))]⟩ :=
  rfl

/-- The margin path is the un-rotated outline of the shrunk frame, shifted by the
inset in both directions. -/
theorem margin_path_eq_translate {QPen : Type} (m : CMath ℝ) (r1 r2 w h waste s : ℝ)
    (id : String) (pen : QPen) :
    ((FrameCd.new m r1 r2 w h waste id).createMarginGraphicsItem m s pen).path =
      ((FrameCd.new m (r1 - s) (r2 + s) (w - 2 * s) (h - 2 * s) waste id).path false).translate
        s s := by
  rw [margin_path_elements, path_false_elements]
  have ex : (0 : ℝ) + (w / 2 - (r1 - s)) = 0 + ((w - 2 * s) / 2 - (r1 - s)) + s := by ring
  have ey : (0 : ℝ) + (h / 2 - (r1 - s)) = 0 + ((h - 2 * s) / 2 - (r1 - s)) + s := by ring
  have ehx : r1 - s - (r2 + s) + (w / 2 - (r1 - s)) =
      r1 - s - (r2 + s) + ((w - 2 * s) / 2 - (r1 - s)) + s := by ring
  have ehy : r1 - s - (r2 + s) + (h / 2 - (r1 - s)) =
      r1 - s - (r2 + s) + ((h - 2 * s) / 2 - (r1 - s)) + s := by ring
  rw [ex, ey, ehx, ehy]
  rfl

/-- Claim C14. For every `FrameCd (r1, r2, w, h)` and every size `s` with `r1 - s > 0`,
`0 < w - 2s <= 2(r1 - s)` and `0 < h - 2s <= 2(r1 - s)`, the path built by
`createMarginGraphicsItem(s)` equals `path(false)` of
`FrameCd(r1 - s, r2 + s, w - 2s, h - 2s)` translated by `(s, s)`; its arc
elements lie on the circle of radius `r1 - s` and its hole is the circle of
radius `r2 + s`, both with centre `(w/2, h/2)`; and every straight piece of its
outer contour lies, with both its ends and all its points, on one of the lines
`y = s`, `x = s`, `y = h - s`, `x = w - s`. -/
theorem margin_is_shrunk_outline_shifted {QPen : Type} (r1 r2 w h waste s : ℝ) (id : String)
    (pen : QPen) (hr : 0 < r1 - s) (hw : 0 < w - 2 * s) (hw2 : w - 2 * s ≤ 2 * (r1 - s))
    (hh : 0 < h - 2 * s) (hh2 : h - 2 * s ≤ 2 * (r1 - s)) :
    ((FrameCd.new ⟨Real.arccos, Real.arcsin, Real.cos, Real.sin, Real.pi⟩ r1 r2 w h waste
        id).createMarginGraphicsItem ⟨Real.arccos, Real.arcsin, Real.cos, Real.sin, Real.pi⟩ s
        pen).path =
      ((FrameCd.new ⟨Real.arccos, Real.arcsin, Real.cos, Real.sin, Real.pi⟩ (r1 - s) (r2 + s)
        (w - 2 * s) (h - 2 * s) waste id).path false).translate s s ∧
    (∀ e ∈ ((FrameCd.new ⟨Real.arccos, Real.arcsin, Real.cos, Real.sin, Real.pi⟩ r1 r2 w h waste
        id).createMarginGraphicsItem ⟨Real.arccos, Real.arcsin, Real.cos, Real.sin, Real.pi⟩ s
        pen).path.elements,
      e = PathElement.closeSubpath ∨
      (∃ x y a : ℝ, e = PathElement.arcMoveTo x y (2 * (r1 - s)) (2 * (r1 - s)) a ∧
        x + (r1 - s) = w / 2 ∧ y + (r1 - s) = h / 2 ∧
        ∀ t : ℝ,
          ((arcPoint ⟨Real.arccos, Real.arcsin, Real.cos, Real.sin, Real.pi⟩ x y
              (2 * (r1 - s)) (2 * (r1 - s)) t).1 - w / 2) ^ 2 +
            ((arcPoint ⟨Real.arccos, Real.arcsin, Real.cos, Real.sin, Real.pi⟩ x y
              (2 * (r1 - s)) (2 * (r1 - s)) t).2 - h / 2) ^ 2 = (r1 - s) ^ 2) ∨
      (∃ x y a sw : ℝ, e = PathElement.arcTo x y (2 * (r1 - s)) (2 * (r1 - s)) a sw ∧
        x + (r1 - s) = w / 2 ∧ y + (r1 - s) = h / 2 ∧
        ∀ t : ℝ,
          ((arcPoint ⟨Real.arccos, Real.arcsin, Real.cos, Real.sin, Real.pi⟩ x y
              (2 * (r1 - s)) (2 * (r1 - s)) t).1 - w / 2) ^ 2 +
            ((arcPoint ⟨Real.arccos, Real.arcsin, Real.cos, Real.sin, Real.pi⟩ x y
              (2 * (r1 - s)) (2 * (r1 - s)) t).2 - h / 2) ^ 2 = (r1 - s) ^ 2) ∨
      (∃ x y : ℝ, e = PathElement.addEllipse x y (2 * (r2 + s)) (2 * (r2 + s)) ∧
        x + (r2 + s) = w / 2 ∧ y + (r2 + s) = h / 2 ∧
        ∀ t : ℝ,
          ((arcPoint ⟨Real.arccos, Real.arcsin, Real.cos, Real.sin, Real.pi⟩ x y
              (2 * (r2 + s)) (2 * (r2 + s)) t).1 - w / 2) ^ 2 +
            ((arcPoint ⟨Real.arccos, Real.arcsin, Real.cos, Real.sin, Real.pi⟩ x y
              (2 * (r2 + s)) (2 * (r2 + s)) t).2 - h / 2) ^ 2 = (r2 + s) ^ 2)) ∧
    ∀ p q : ℝ × ℝ,
      Piece.line p q ∈
        ((FrameCd.new ⟨Real.arccos, Real.arcsin, Real.cos, Real.sin, Real.pi⟩ r1 r2 w h waste
          id).createMarginGraphicsItem ⟨Real.arccos, Real.arcsin, Real.cos, Real.sin, Real.pi⟩ s
          pen).path.outerContour ⟨Real.arccos, Real.arcsin, Real.cos, Real.sin, Real.pi⟩ →
      ∀ pt : ℝ × ℝ,
        Piece.Contains ⟨Real.arccos, Real.arcsin, Real.cos, Real.sin, Real.pi⟩
          (Piece.line p q) pt →
        (p.2 = s ∧ q.2 = s ∧ pt.2 = s) ∨ (p.1 = s ∧ q.1 = s ∧ pt.1 = s) ∨
        (p.2 = h - s ∧ q.2 = h - s ∧ pt.2 = h - s) ∨
        (p.1 = w - s ∧ q.1 = w - s ∧ pt.1 = w - s) := by
  refine ⟨margin_path_eq_translate _ r1 r2 w h waste s id pen, ?_, ?_⟩
  · intro e hmem
    rw [margin_path_elements] at hmem
    exact fourArcs_concentric _ _ (r1 - s) _ _ (r2 + s) (w / 2) (h / 2) _ _ (by ring) (by ring)
      (by ring) (by ring) e hmem
  · intro p q hmem pt hpt
    rw [margin_path_elements] at hmem
    have key := clip_lines_on_edges (0 + (w / 2 - (r1 - s))) (0 + (h / 2 - (r1 - s))) (r1 - s)
      (w - 2 * s) (h - 2 * s) hr hw hw2 hh hh2 _ p q hmem pt hpt
    have ey0 : 0 + (h / 2 - (r1 - s)) + (r1 - s) - (h - 2 * s) / 2 = s := by ring
    have ex0 : 0 + (w / 2 - (r1 - s)) + (r1 - s) - (w - 2 * s) / 2 = s := by ring
    have ey1 : 0 + (h / 2 - (r1 - s)) + (r1 - s) + (h - 2 * s) / 2 = h - s := by ring
    have ex1 : 0 + (w / 2 - (r1 - s)) + (r1 - s) + (w - 2 * s) / 2 = w - s := by ring
    rw [ey0, ex0, ey1, ex1] at key
    exact key

/-- Instance of C14 at `R = 60`, `r2 = 7.5`, `W = 100`, `H = 80` and the inset `5`. -/
theorem margin_is_shrunk_outline_shifted_witness :
    ((0 : ℝ) < 60 - 5 ∧ (0 : ℝ) < 100 - 2 * 5 ∧ (100 : ℝ) - 2 * 5 ≤ 2 * (60 - 5) ∧
      (0 : ℝ) < 80 - 2 * 5 ∧ (80 : ℝ) - 2 * 5 ≤ 2 * (60 - 5)) ∧
    ((FrameCd.new ⟨Real.arccos, Real.arcsin, Real.cos, Real.sin, Real.pi⟩ 60 7.5 100 80 0
        "CD").createMarginGraphicsItem ⟨Real.arccos, Real.arcsin, Real.cos, Real.sin, Real.pi⟩ 5
        ()).path =
      ((FrameCd.new ⟨Real.arccos, Real.arcsin, Real.cos, Real.sin, Real.pi⟩ (60 - 5) (7.5 + 5)
        (100 - 2 * 5) (80 - 2 * 5) 0 "CD").path false).translate 5 5 :=
  ⟨⟨by norm_num, by norm_num, by norm_num, by norm_num, by norm_num⟩,
    (margin_is_shrunk_outline_shifted 60 7.5 100 80 0 5 "CD" () (by norm_num) (by norm_num)
      (by norm_num) (by norm_num) (by norm_num)).1⟩

end libglabels
